import Mathlib

/-!
Verification of the course-converter core (OLX course export → LiaScript
Markdown).  The definitions below are a shallow embedding, translated
function by function from `courseconverter.js`:

* parsed XML values (the output of `fast-xml-parser`) are modelled by
  small Lean structures whose fields are exactly the object keys the
  JavaScript code reads; a field that the code guards with a JavaScript
  truthiness test is an `Option` (with `none` standing for `undefined`
  and for the falsy empty value), and a field that the code probes with
  `Array.isArray` is a `JArr`, which distinguishes `undefined`, a single
  (non-array) child and an array of children, exactly as the parser
  produces them;
* the filesystem of one extracted course directory is a `CourseFS` of
  lookup functions keyed by `url_name` (the JavaScript builds the path
  `<root>/<kind>/<id>.xml` and asks `fs.existsSync`; the lookup result
  `none` models the missing file, and path strings are rebuilt verbatim
  for the error messages);
* functions that `throw` return `Except String` with the thrown message;
* the third-party HTML→Markdown translation (`node-html-markdown`
  composed with the media-path rewrite) is an abstract parameter
  `htmlTranslate` of the rendering environment: no theorem below depends
  on its behaviour, so each is proved for every such function.
-/

set_option linter.unusedVariables false

namespace CourseConverter

/-! ## JavaScript value helpers -/

/-- A JavaScript value that `fast-xml-parser` yields for a repeatable child
element: absent (`undefined`), a single (non-array) node, or an array of
nodes. -/
inductive JArr (α : Type) where
  | undef : JArr α
  | single (a : α) : JArr α
  | arr (l : List α) : JArr α
deriving Repr, DecidableEq

/-- `toArray(maybeArray)` from the source: `null`/`undefined` becomes `[]`,
an array stays itself, anything else becomes a one-element array. -/
def toArray {α : Type} : JArr α → List α
  | .undef => []
  | .single a => [a]
  | .arr l => l

/-- JavaScript truthiness of an optional string attribute: `undefined` and
the empty string are falsy. -/
def jsTruthy (o : Option String) : Bool :=
  match o with
  | some s => s ≠ ""
  | none => false

/-- JavaScript `a || d` for an optional string `a` and a string default
`d`: the default is taken when `a` is `undefined` or empty. -/
def jsOrD (a : Option String) (d : String) : String :=
  match a with
  | some s => if s = "" then d else s
  | none => d

/-- JavaScript `array.join(sep)`. -/
def joinSep (sep : String) : List String → String
  | [] => ""
  | [a] => a
  | a :: b :: rest => a ++ sep ++ joinSep sep (b :: rest)

/-- Join a list of strings with a newline: JavaScript `lines.join("\n")`. -/
def joinNL : List String → String
  | [] => ""
  | [a] => a
  | a :: b :: rest => a ++ "\n" ++ joinNL (b :: rest)

/-- `path.join` for the plain relative segments the converter uses. -/
def pathJoin (a b : String) : String := a ++ "/" ++ b

/-- JavaScript `String.prototype.trim()`: strip whitespace from both
ends. -/
def jsTrim (s : String) : String :=
  String.mk (((s.data.dropWhile Char.isWhitespace).reverse.dropWhile Char.isWhitespace).reverse)

/-- JavaScript `String.prototype.toLowerCase()` on the ASCII range the
kind strings use. -/
def jsToLower (s : String) : String :=
  String.mk (s.data.map Char.toLower)

/-- Boolean substring test on strings (used to state containment facts
about rendered output). -/
def strContains (pat s : String) : Bool :=
  go pat.data s.data
where
  go (p : List Char) : List Char → Bool
    | [] => p.isEmpty
    | c :: cs => p.isPrefixOf (c :: cs) || go p cs

/-! ## `sanitizeFileName` (media file-name sanitization) -/

/-- The character class `[A-Za-z0-9._-]` of `sanitizeFileName`. -/
def isAllowedChar (c : Char) : Bool :=
  ('A' ≤ c && c ≤ 'Z') || ('a' ≤ c && c ≤ 'z') || ('0' ≤ c && c ≤ '9') ||
    c = '.' || c = '_' || c = '-'

/-- `.replace(/[^A-Za-z0-9._-]+/g, "_")`: each maximal run of disallowed
characters becomes a single underscore.  The flag records whether the scan
is inside a disallowed run whose underscore has already been emitted. -/
def collapseDisallowed : Bool → List Char → List Char
  | _, [] => []
  | inRun, c :: cs =>
    if isAllowedChar c then c :: collapseDisallowed false cs
    else if inRun then collapseDisallowed true cs
    else '_' :: collapseDisallowed true cs

/-- `.replace(/_+/g, "_")`: each maximal run of underscores becomes a
single underscore. -/
def collapseUnderscores : Bool → List Char → List Char
  | _, [] => []
  | inRun, c :: cs =>
    if c = '_' then
      if inRun then collapseUnderscores true cs
      else '_' :: collapseUnderscores true cs
    else c :: collapseUnderscores false cs

/-- `.replace(/^_+|_+$/g, "")`: drop the leading and the trailing run of
underscores. -/
def trimUnderscores (l : List Char) : List Char :=
  (((l.dropWhile (fun c => c == '_')).reverse.dropWhile (fun c => c == '_'))).reverse

/-- `sanitizeFileName` from the source: collapse runs of characters outside
`[A-Za-z0-9._-]` to `_`, collapse underscore runs, trim underscores at both
ends. -/
def sanitizeFileName (s : String) : String :=
  String.mk (trimUnderscores (collapseUnderscores false (collapseDisallowed false s.data)))

/-- No two adjacent underscores. -/
def noDoubleUnd : List Char → Bool
  | a :: b :: rest => !(a = '_' && b = '_') && noDoubleUnd (b :: rest)
  | _ => true

/-! ## Parsed problem XML values

The value shapes below mirror what `fast-xml-parser` (attributes prefixed
with `@_`) hands to the renderers, at the keys the JavaScript reads. -/

/-- A `<choice>` node: either a bare text node (no attributes) or an
attributed node with an optional `@_correct` attribute and optional
`#text`.  `choiceText` below reproduces `choice["#text"] || choice`: when
the `#text` lookup is falsy on an attributed node, the object itself is
interpolated, which JavaScript prints as `[object Object]`. -/
inductive ChoiceV where
  | str (s : String) : ChoiceV
  | obj (correct : Option String) (text : Option String) : ChoiceV
deriving Repr, DecidableEq

/-- `choice["@_correct"] === "true"` (exact, case-sensitive comparison). -/
def choiceIsCorrect : ChoiceV → Bool
  | .str _ => false
  | .obj correct _ => correct = some "true"

/-- `choice["#text"] || choice` as interpolated into the template string. -/
def choiceText : ChoiceV → String
  | .str s => s
  | .obj _ (some t) => if t = "" then "[object Object]" else t
  | .obj _ none => "[object Object]"

/-- A `<choicegroup>`/`<checkboxgroup>` node with its `choice` children. -/
structure ChoiceGroup where
  choice : JArr ChoiceV
deriving Repr, DecidableEq

/-- A `<hint>`/`<demotedhint>`/`<description>` node: a bare text node or an
attributed node with optional `#text`. -/
inductive HintV where
  | str (s : String) : HintV
  | obj (text : Option String) : HintV
deriving Repr, DecidableEq

/-- An `<option>` node of an `<optioninput>`. -/
inductive OptV where
  | str (s : String) : OptV
  | obj (correct : Option String) (text : Option String) : OptV
deriving Repr, DecidableEq

/-- An `<optioninput>` node with its `option` children. -/
structure OptionInput where
  option : JArr OptV
deriving Repr, DecidableEq

/-- An `<additional_answer>` node: a bare text node or an attributed node
with an optional `@_answer` attribute. -/
inductive AddAnsV where
  | str (s : String) : AddAnsV
  | obj (answer : Option String) : AddAnsV
deriving Repr, DecidableEq

/-- A response element (`multiplechoiceresponse`, `choiceresponse`,
`optionresponse`, `stringresponse` or `numericalresponse`), carrying every
key any renderer reads from such a node.  A key the node does not have is
`none`/`JArr.undef`, exactly like the missing JavaScript property. -/
structure RNode where
  p : Option String := none
  label : Option String := none
  choicegroup : Option ChoiceGroup := none
  checkboxgroup : Option ChoiceGroup := none
  optioninput : Option OptionInput := none
  answer : Option String := none
  additional_answer : JArr AddAnsV := .undef
  hint : JArr HintV := .undef
  demotedhint : JArr HintV := .undef
  description : JArr HintV := .undef
deriving Repr, DecidableEq

/-- The parsed `<problem>` root object.  `formularesponse`/`coderesponse`
are only ever tested for presence, so they are booleans; the root-level
`p`, `hint`, `demotedhint` and `description` keys are read by
`renderUnsupportedProblem`/`extractHints`; `display_name` is the
`@_display_name` attribute, read only when the component is parsed (never
by `determineProblemType`). -/
structure Problem where
  multiplechoiceresponse : Option RNode := none
  choiceresponse : Option RNode := none
  optionresponse : Option RNode := none
  stringresponse : Option RNode := none
  numericalresponse : Option RNode := none
  formularesponse : Bool := false
  coderesponse : Bool := false
  p : Option String := none
  hint : JArr HintV := .undef
  demotedhint : JArr HintV := .undef
  description : JArr HintV := .undef
  display_name : Option String := none
deriving Repr, DecidableEq

/-! ## Problem-type detection -/

/-- `determineProblemType` from the source: structural first-match
dispatch on which response element the problem root contains. -/
def determineProblemType (problem : Problem) : String :=
  match problem.multiplechoiceresponse with
  | some _ => "multiple_choice"
  | none =>
    match problem.choiceresponse with
    | some choiceResponse =>
      if choiceResponse.checkboxgroup.isSome then "multiple_choice"
      else if choiceResponse.choicegroup.isSome then "choice"
      else "choice"
    | none =>
      match problem.optionresponse with
      | some _ => "selection"
      | none =>
        match problem.stringresponse with
        | some _ => "text_input"
        | none =>
          match problem.numericalresponse with
          | some _ => "number_input"
          | none =>
            if problem.formularesponse then "formula"
            else if problem.coderesponse then "code"
            else "unknown"

/-! ## Hint extraction -/

/-- One push of `extractHints`: a bare string is trimmed and pushed; an
object is pushed (trimmed) only when its `#text` is truthy. -/
def hintText : HintV → Option String
  | .str s => some (jsTrim s)
  | .obj (some t) => if t = "" then none else some (jsTrim t)
  | .obj none => none

/-- `extractHints(content)` from the source, reading `content.hint`,
`content.demotedhint` and `content.description` in that order and
dropping empty strings at the end (`.filter(Boolean)`). -/
def extractHints (hint demotedhint description : JArr HintV) : List String :=
  (((toArray hint).filterMap hintText ++ (toArray demotedhint).filterMap hintText ++
      (toArray description).filterMap hintText).filter (fun s => s ≠ ""))

/-! ## Problem renderers -/

/-- The `- [[X]] <text>` / `- [[ ]] <text>` bullet of the multiple-choice
renderers. -/
def mcBullet (c : ChoiceV) : String :=
  "- " ++ (if choiceIsCorrect c then "[[X]]" else "[[ ]]") ++ " " ++ choiceText c

/-- The `- [(X)] <text>` / `- [( )] <text>` bullet of the single-choice
renderer. -/
def scBullet (c : ChoiceV) : String :=
  "- " ++ (if choiceIsCorrect c then "[(X)]" else "[( )]") ++ " " ++ choiceText c

/-- The prompt lines every problem renderer emits first: the `p` content
and the `label` content, each (when truthy) pushed as `<content>\n`. -/
def promptLines (node : RNode) : List String :=
  (if jsTruthy node.p then [(jsOrD node.p "") ++ "\n"] else []) ++
    (if jsTruthy node.label then [(jsOrD node.label "") ++ "\n"] else [])

/-- The `- [[?]] <hint>` lines appended after an answer body. -/
def hintLines (node : RNode) : List String :=
  (extractHints node.hint node.demotedhint node.description).map
    (fun h => "- [[?]] " ++ h)

/-- Bullets of one choice group as the source emits them: only a `choice`
value that `Array.isArray` accepts is iterated (a lone `<choice>` child is
parsed as a single object, not an array, and yields no bullet). -/
def groupBullets (bullet : ChoiceV → String) (g : Option ChoiceGroup) : List String :=
  match g with
  | some cg =>
    match cg.choice with
    | .arr cs => cs.map bullet
    | _ => []
  | none => []

/-- `renderMultipleChoiceProblem` from the source: the
`multiplechoiceresponse.choicegroup` list first, then the
`choiceresponse.checkboxgroup` list, each preceded by its prompt and
followed by its hints. -/
def renderMultipleChoiceProblem (content : Problem) (displayName : String) : String :=
  let mcLines :=
    match content.multiplechoiceresponse with
    | some multipleChoice =>
      promptLines multipleChoice ++ groupBullets mcBullet multipleChoice.choicegroup ++
        hintLines multipleChoice
    | none => []
  let crLines :=
    match content.choiceresponse with
    | some choiceResponse =>
      promptLines choiceResponse ++ groupBullets mcBullet choiceResponse.checkboxgroup ++
        hintLines choiceResponse
    | none => []
  joinNL (mcLines ++ crLines)

/-- `renderChoiceProblem` from the source: single-select bullets from
`choiceresponse.choicegroup`. -/
def renderChoiceProblem (content : Problem) (displayName : String) : String :=
  match content.choiceresponse with
  | some choice =>
    joinNL (promptLines choice ++ groupBullets scBullet choice.choicegroup ++ hintLines choice)
  | none => joinNL []

/-- One rendered option of the selection renderer: the correct option
(`@_correct` equal to `"true"` after `String(...).toLowerCase()`) is
wrapped in `( … )`. -/
def optionRendered (opt : OptV) : String :=
  match opt with
  | .str s => s
  | .obj correct text =>
    let t := jsOrD text ""
    if jsToLower (correct.getD "undefined") = "true" then "( " ++ t ++ " )" else t

/-- `renderSelectionProblem` from the source. -/
def renderSelectionProblem (content : Problem) (displayName : String) : String :=
  match content.optionresponse with
  | none => ""
  | some node =>
    let opts :=
      match node.optioninput with
      | some oi => toArray oi.option
      | none => []
    let optLine :=
      if opts.length > 0 then
        ["[[ " ++ joinSep " | " (opts.map optionRendered) ++ " ]]"]
      else []
    joinNL (promptLines node ++ optLine ++ hintLines node)

/-- The trimmed variant contributed by one `additional_answer` node:
`(typeof v === "string" ? v : v["@_answer"] || "").toString().trim()`. -/
def additionalAnswerText (v : AddAnsV) : String :=
  match v with
  | .str s => jsTrim s
  | .obj answer => jsTrim (jsOrD answer "")

/-- `renderTextInputProblem` from the source. -/
def renderTextInputProblem (content : Problem) (displayName : String) : String :=
  let pLines :=
    match content.stringresponse with
    | some sr => promptLines sr
    | none => []
  let bodyLines :=
    match content.stringresponse with
    | some stringResponse =>
      let primary := jsTrim (jsOrD stringResponse.answer "")
      let variants :=
        ((toArray stringResponse.additional_answer).map additionalAnswerText).filter
          (fun s => s ≠ "")
      let allAnswers := (primary :: variants).filter (fun s => s ≠ "")
      (if allAnswers.length > 0 then
        ["\n    [[" ++ joinSep " | " allAnswers ++ "]]\n"]
      else ["\n    [[ ]]\n"]) ++ hintLines stringResponse
    | none => []
  joinNL (pLines ++ bodyLines)

/-- `renderNumberInputProblem` from the source: a fixed
`    [[Enter a number]]` placeholder body. -/
def renderNumberInputProblem (content : Problem) (displayName : String) : String :=
  match content.numericalresponse with
  | some numericalResponse =>
    joinNL (promptLines numericalResponse ++ ["    [[Enter a number]]\n"] ++
      hintLines numericalResponse)
  | none => joinNL []

/-- `renderUnsupportedProblem` from the source: prompt, display name and a
literal "type not supported" marker naming the concrete problem type,
followed by root-level hints. -/
def renderUnsupportedProblem (content : Problem) (displayName : String)
    (problemType : String) : String :=
  let pLines := if jsTruthy content.p then [(jsOrD content.p "") ++ "\n"] else []
  let nameLines := if displayName ≠ "" then [displayName ++ "\n"] else []
  let marker := "*仅支持多选、单选、下拉选择、文本输入、数字输入问题，" ++ problemType ++ " 类型暂不支持。*\n"
  let hints :=
    (extractHints content.hint content.demotedhint content.description).map
      (fun h => "- [[?]] " ++ h)
  joinNL (pLines ++ nameLines ++ [marker] ++ hints)

/-! ## Video model and renderers -/

/-- The parsed `<video>` root object, at the keys the code reads:
`@_youtube`, `@_url_name` and `@_display_name`. -/
structure VideoNode where
  youtube : Option String := none
  url_name : Option String := none
  display_name : Option String := none
deriving Repr, DecidableEq

/-- `determineVideoType` from the source. -/
def determineVideoType (video : VideoNode) : String :=
  if jsTruthy video.youtube then "youtube"
  else if jsTruthy video.url_name then "external"
  else "unknown"

/-- `renderYouTubeVideo` from the source: the `@_youtube` attribute is a
colon-separated list whose second field is the video id. -/
def renderYouTubeVideo (content : VideoNode) (displayName : String) : String :=
  match content.youtube with
  | some youtubeAttr =>
    if youtubeAttr = "" then joinNL []
    else
      let parts := youtubeAttr.splitOn ":"
      if parts.length ≥ 2 then
        joinNL ["**" ++ displayName ++ "**\n", "Watch the video below:\n",
          "\n!?[" ++ displayName ++ "](https://www.youtube.com/watch?v=" ++
            parts.getD 1 "" ++ ")\n"]
      else
        joinNL ["**" ++ displayName ++ "**\n", "*Video ID could not be extracted*\n"]
  | none => joinNL []

/-- `renderExternalVideo` from the source: the raw `@_url_name` value is
used directly as the video URL. -/
def renderExternalVideo (content : VideoNode) (displayName : String) : String :=
  match content.url_name with
  | some urlName =>
    if urlName = "" then
      joinNL ["**" ++ displayName ++ "**\n", "*Video URL not found*\n"]
    else
      joinNL ["**" ++ displayName ++ "**\n", "Watch the video below:\n",
        "\n!?[" ++ displayName ++ "](" ++ urlName ++ ")\n"]
  | none => joinNL ["**" ++ displayName ++ "**\n", "*Video URL not found*\n"]

/-- `renderUnsupportedVideo` from the source. -/
def renderUnsupportedVideo (content : VideoNode) (displayName : String) : String :=
  joinNL ["**" ++ displayName ++ "**\n", "*仅支持 YouTube 和外部 URL 视频，其他视频类型暂不支持。*\n"]

/-! ## Component references, intermediate representation and filesystem -/

/-- A component reference as collected from a vertical (`{ kind, id }`);
`displayName` models the absent `displayName` property that
`parseProblemComponent`/`parseVideoComponent`/`parseAboutComponent`
destructure (always `undefined` for refs produced by
`collectComponentRefs`). -/
structure ComponentRef where
  kind : String
  id : String
  displayName : Option String := none
deriving Repr, DecidableEq

/-- The tagged component IR: the `type` tag of the JavaScript object is
the constructor. -/
inductive ComponentIR where
  | html (content : String) (filename : String) (displayName : String) : ComponentIR
  | problem (content : Problem) (filename : String) (displayName : String)
      (problemType : String) : ComponentIR
  | video (content : VideoNode) (filename : String) (displayName : String)
      (videoType : String) : ComponentIR
  | about (content : String) (filename : String) (displayName : String) : ComponentIR
  | unknown (content : String) (filename : String) (displayName : String) : ComponentIR
deriving Repr, DecidableEq

/-- The `html/<id>.xml` metadata file: its root (`html`/`HTML`, defaulting
to `{}`) only contributes an optional `@_display_name`. -/
structure HtmlXmlNode where
  display_name : Option String := none
deriving Repr, DecidableEq

/-- A reference item (`<chapter>`, `<sequential>`, `<vertical>` child)
carrying its `@_url_name`. -/
structure RefItem where
  url_name : Option String := none
deriving Repr, DecidableEq

/-- A component item inside a vertical, with the three id-attribute
candidates of `collectComponentRefs`. -/
structure CompItem where
  url_name : Option String := none
  url : Option String := none
  filename : Option String := none
deriving Repr, DecidableEq

/-- The parsed `course.xml` (or `course/<url_name>.xml`) root node at the
keys `parseCourseXml` reads. -/
structure CourseNode where
  url_name : Option String := none
  course : Option String := none
  attr_display_name : Option String := none
  display_name : Option String := none
  chapter : JArr RefItem := .undef
deriving Repr, DecidableEq

/-- The parsed `chapter/<ref>.xml` root node (after the `chapter`/`CHAPTER`
case fallback). -/
structure ChapterNode where
  attr_display_name : Option String := none
  display_name : Option String := none
  sequential : JArr RefItem := .undef
deriving Repr, DecidableEq

/-- The parsed `sequential/<ref>.xml` root node. -/
structure SequentialNode where
  attr_display_name : Option String := none
  display_name : Option String := none
  vertical : JArr RefItem := .undef
deriving Repr, DecidableEq

/-- The parsed `vertical/<ref>.xml` root node, with the four known
component-kind child lists (after the lowercase/uppercase case fallback)
in the fixed scan order `html`, `problem`, `video`, `about`. -/
structure VerticalNode where
  attr_display_name : Option String := none
  display_name : Option String := none
  html : JArr CompItem := .undef
  problem : JArr CompItem := .undef
  video : JArr CompItem := .undef
  about : JArr CompItem := .undef
deriving Repr, DecidableEq

/-- One extracted course directory, as lookup functions keyed by the
`url_name` id that the JavaScript turns into a path.  `none` is a missing
file (`fs.existsSync` false).  For `problemFile`/`videoFile` the inner
`Option` is the root-element lookup (`parsed.problem` / `parsed.video`):
`some none` is a file that parses but whose root element is not the
recognized one. -/
structure CourseFS where
  courseXml : Option CourseNode := none
  courseDetailFile : String → Option CourseNode := fun _ => none
  chapterFile : String → Option ChapterNode := fun _ => none
  sequentialFile : String → Option SequentialNode := fun _ => none
  verticalFile : String → Option VerticalNode := fun _ => none
  htmlXmlFile : String → Option HtmlXmlNode := fun _ => none
  htmlBodyFile : String → Option String := fun _ => none
  problemFile : String → Option (Option Problem) := fun _ => none
  videoFile : String → Option (Option VideoNode) := fun _ => none
  aboutDir : Option (List String) := none
  aboutFileContent : String → String := fun _ => ""

/-! ## Component parsing -/

/-- `parseHtmlComponent` from the source: requires both `html/<id>.xml`
and `html/<id>.html`. -/
def parseHtmlComponent (fs : CourseFS) (courseRoot : String) (componentId : String) :
    Except String ComponentIR :=
  let htmlXmlPath := pathJoin (pathJoin courseRoot "html") (componentId ++ ".xml")
  let htmlContentPath := pathJoin (pathJoin courseRoot "html") (componentId ++ ".html")
  match fs.htmlXmlFile componentId with
  | none => .error ("HTML component XML not found: " ++ htmlXmlPath)
  | some xmlNode =>
    match fs.htmlBodyFile componentId with
    | none => .error ("HTML component content not found: " ++ htmlContentPath)
    | some htmlContent =>
      .ok (.html htmlContent componentId (jsOrD xmlNode.display_name componentId))

/-- `parseProblemComponent` from the source: requires `problem/<id>.xml`
with a recognized `problem` root. -/
def parseProblemComponent (fs : CourseFS) (courseRoot : String) (component : ComponentRef) :
    Except String ComponentIR :=
  let problemPath := pathJoin (pathJoin courseRoot "problem") (component.id ++ ".xml")
  match fs.problemFile component.id with
  | none => .error ("Problem file not found: " ++ problemPath)
  | some parsedRoot =>
    match parsedRoot with
    | none => .error ("Invalid problem XML structure: " ++ component.id)
    | some problem =>
      .ok (.problem problem component.id
        (jsOrD problem.display_name (jsOrD component.displayName component.id))
        (determineProblemType problem))

/-- `parseVideoComponent` from the source: requires `video/<id>.xml` with
a recognized `video` root. -/
def parseVideoComponent (fs : CourseFS) (courseRoot : String) (component : ComponentRef) :
    Except String ComponentIR :=
  let videoPath := pathJoin (pathJoin courseRoot "video") (component.id ++ ".xml")
  match fs.videoFile component.id with
  | none => .error ("Video file not found: " ++ videoPath)
  | some parsedRoot =>
    match parsedRoot with
    | none => .error ("Invalid video XML structure: " ++ component.id)
    | some video =>
      .ok (.video video component.id
        (jsOrD video.display_name (jsOrD component.displayName component.id))
        (determineVideoType video))

/-- `parseAboutComponent` from the source: requires an `about/` directory
containing at least one `.html` file; the first such file (listing order)
is read verbatim. -/
def parseAboutComponent (fs : CourseFS) (courseRoot : String) (component : ComponentRef) :
    Except String ComponentIR :=
  let aboutPath := pathJoin courseRoot "about"
  match fs.aboutDir with
  | none => .error ("About directory not found: " ++ aboutPath)
  | some aboutFiles =>
    match aboutFiles.filter (fun f => f.endsWith ".html") with
    | [] => .error ("No HTML files found in about directory: " ++ aboutPath)
    | firstHtml :: _ =>
      .ok (.about (fs.aboutFileContent firstHtml) firstHtml
        (jsOrD component.displayName "About This Course"))

/-- `parseComponent` from the source: validate the arguments, then
dispatch on the lower-cased kind; an unrecognized kind yields the
`unknown` placeholder IR instead of an error. -/
def parseComponent (fs : CourseFS) (courseRoot : String) (component : ComponentRef) :
    Except String ComponentIR :=
  if courseRoot = "" then
    .error "Invalid parameters: courseRoot and component are required"
  else if component.kind = "" || component.id = "" then
    .error "Invalid component: kind and id are required"
  else
    let kindLower := jsToLower component.kind
    if kindLower = "html" then parseHtmlComponent fs courseRoot component.id
    else if kindLower = "problem" then parseProblemComponent fs courseRoot component
    else if kindLower = "video" then parseVideoComponent fs courseRoot component
    else if kindLower = "about" then parseAboutComponent fs courseRoot component
    else
      .ok (.unknown
        ("*Unsupported component type: " ++ component.kind ++ " (" ++ component.id ++ ")*")
        component.id component.id)

/-! ## Component rendering -/

/-- `renderProblemComponent` from the source, dispatching on the stored
`problemType` string. -/
def renderProblemComponent (content : Problem) (displayName : String)
    (problemType : String) : String :=
  if problemType = "multiple_choice" then renderMultipleChoiceProblem content displayName
  else if problemType = "choice" then renderChoiceProblem content displayName
  else if problemType = "selection" then renderSelectionProblem content displayName
  else if problemType = "text_input" then renderTextInputProblem content displayName
  else if problemType = "number_input" then renderNumberInputProblem content displayName
  else renderUnsupportedProblem content displayName problemType

/-- `renderVideoComponent` from the source, dispatching on the stored
`videoType` string. -/
def renderVideoComponent (content : VideoNode) (displayName : String)
    (videoType : String) : String :=
  if videoType = "youtube" then renderYouTubeVideo content displayName
  else if videoType = "external" then renderExternalVideo content displayName
  else renderUnsupportedVideo content displayName

/-- `renderHtmlContent` from the source.  `htmlTranslate` abstracts the
composition of the media-path rewrite and the external
`node-html-markdown` translation; an empty translation result renders as
the explicit `*No content available*` placeholder. -/
def renderHtmlContent (htmlTranslate : String → String) (content : String) : String :=
  let markdown := htmlTranslate content
  if jsTrim markdown = "" then "*No content available*" else jsTrim markdown

/-- `renderAboutHtml` from the source. -/
def renderAboutHtml (htmlTranslate : String → String) (content : String)
    (displayName : String) : String :=
  let markdown := htmlTranslate content
  joinNL (["## " ++ displayName ++ "\n"] ++
    [if jsTrim markdown ≠ "" then jsTrim markdown else "*No content available*"] ++
    ["\n---\n"])

/-- `renderComponent` from the source, dispatching on the IR tag. -/
def renderComponent (htmlTranslate : String → String) (componentIR : ComponentIR) : String :=
  match componentIR with
  | .html content _ _ => renderHtmlContent htmlTranslate content
  | .problem content _ displayName problemType =>
    renderProblemComponent content displayName problemType
  | .video content _ displayName videoType =>
    renderVideoComponent content displayName videoType
  | .about content _ displayName => renderAboutHtml htmlTranslate content displayName
  | .unknown content filename displayName =>
    "## Unsupported Component: " ++ (if displayName = "" then filename else displayName) ++
      "\n\n" ++ content ++ "\n\n---\n"

/-! ## Course tree building -/

/-- A structural tree node (chapter, sequential or vertical).  The
JavaScript objects carry one children key each (`sequentials`,
`verticals` or `components`); a single node type with all three lists —
the ones a level does not use stay `[]`/absent — mirrors those dynamic
objects and the one level-indexed `transformNodeToMarkdown` that walks
them. -/
inductive SNode where
  | mk (id : String) (title : String) (sequentials : List SNode)
      (verticals : List SNode) (components : List ComponentRef) : SNode
deriving Repr

/-- Node id. -/
def SNode.id : SNode → String
  | .mk i _ _ _ _ => i

/-- Node title. -/
def SNode.title : SNode → String
  | .mk _ t _ _ _ => t

/-- Chapter children. -/
def SNode.sequentials : SNode → List SNode
  | .mk _ _ s _ _ => s

/-- Sequential children. -/
def SNode.verticals : SNode → List SNode
  | .mk _ _ _ v _ => v

/-- Vertical children. -/
def SNode.components : SNode → List ComponentRef
  | .mk _ _ _ _ c => c

/-- The course tree: `{ id, title, chapters }`. -/
structure CourseTree where
  id : String
  title : String
  chapters : List SNode
deriving Repr

/-- `toArray(node.X || node.X_UPPER || []).map(n => n["@_url_name"]).filter(Boolean)`:
the ordered reference list a structural file declares. -/
def collectRefs (items : JArr RefItem) : List String :=
  (toArray items).filterMap (fun n =>
    match n.url_name with
    | some s => if s = "" then none else some s
    | none => none)

/-- The id of one component item: `url_name`, else `url`, else
`filename`, else the literal `"unknown"` (a present but empty attribute
is falsy and also falls through). -/
def compItemId (it : CompItem) : String :=
  jsOrD it.url_name (jsOrD it.url (jsOrD it.filename "unknown"))

/-- `collectComponentRefs` from the source: scan the fixed kind order
`html`, `problem`, `video`, `about` and emit one ref per matching child. -/
def collectComponentRefs (verticalNode : VerticalNode) : List ComponentRef :=
  (toArray verticalNode.html).map (fun it => { kind := "html", id := compItemId it }) ++
    (toArray verticalNode.problem).map (fun it => { kind := "problem", id := compItemId it }) ++
    (toArray verticalNode.video).map (fun it => { kind := "video", id := compItemId it }) ++
    (toArray verticalNode.about).map (fun it => { kind := "about", id := compItemId it })

/-- The body of `parseVerticals` for one reference. -/
def parseVerticalRef (fs : CourseFS) (courseRoot : String) (ref : String) : SNode :=
  match fs.verticalFile ref with
  | none => .mk ref ("Missing vertical " ++ ref) [] [] []
  | some node =>
    .mk ref (jsOrD node.attr_display_name (jsOrD node.display_name ref)) [] []
      (collectComponentRefs node)

/-- `parseVerticals` from the source. -/
def parseVerticals (fs : CourseFS) (courseRoot : String) (verticalRefs : List String) :
    List SNode :=
  verticalRefs.map (parseVerticalRef fs courseRoot)

/-- The body of `parseSequentials` for one reference. -/
def parseSequentialRef (fs : CourseFS) (courseRoot : String) (ref : String) : SNode :=
  match fs.sequentialFile ref with
  | none => .mk ref ("Missing sequential " ++ ref) [] [] []
  | some node =>
    .mk ref (jsOrD node.attr_display_name (jsOrD node.display_name ref)) []
      (parseVerticals fs courseRoot (collectRefs node.vertical)) []

/-- `parseSequentials` from the source. -/
def parseSequentials (fs : CourseFS) (courseRoot : String) (sequentialRefs : List String) :
    List SNode :=
  sequentialRefs.map (parseSequentialRef fs courseRoot)

/-- The body of `parseChapters` for one reference: a missing
`chapter/<ref>.xml` degrades to the placeholder node and the remaining
references continue to be processed. -/
def parseChapterRef (fs : CourseFS) (courseRoot : String) (ref : String) : SNode :=
  match fs.chapterFile ref with
  | none => .mk ref ("Missing chapter " ++ ref) [] [] []
  | some node =>
    .mk ref (jsOrD node.attr_display_name (jsOrD node.display_name ref))
      (parseSequentials fs courseRoot (collectRefs node.sequential)) [] []

/-- `parseChapters` from the source. -/
def parseChapters (fs : CourseFS) (courseRoot : String) (chapterRefs : List String) :
    List SNode :=
  chapterRefs.map (parseChapterRef fs courseRoot)

/-- The course metadata `parseCourseXml` extracts. -/
structure CourseMeta where
  title : String
  courseId : String
  chapterRefs : List String
deriving Repr, DecidableEq

/-- `parseCourseXml` from the source: read `course.xml`; when its
`url_name` names an existing `course/<url_name>.xml`, prefer that file's
node for the title and chapter references. -/
def parseCourseXml (fs : CourseFS) (courseRoot : String) : Except String CourseMeta :=
  match fs.courseXml with
  | none => .error ("course.xml not found at " ++ pathJoin courseRoot "course.xml")
  | some rootNode =>
    let urlName := rootNode.url_name
    let courseCode := rootNode.course
    let node :=
      match urlName with
      | some u => if u = "" then rootNode else (fs.courseDetailFile u).getD rootNode
      | none => rootNode
    let title := jsOrD node.attr_display_name (jsOrD node.display_name
      (jsOrD urlName "Untitled Course"))
    let courseId := jsOrD node.course (jsOrD courseCode
      (jsOrD node.url_name (jsOrD urlName "unknown")))
    .ok { title := title, courseId := courseId, chapterRefs := collectRefs node.chapter }

/-- `buildCourseTree` from the source: fails only when `course.xml` is
missing. -/
def buildCourseTree (fs : CourseFS) (courseRoot : String) : Except String CourseTree :=
  match parseCourseXml fs courseRoot with
  | .error e => .error e
  | .ok meta =>
    .ok { id := meta.courseId, title := meta.title,
          chapters := parseChapters fs courseRoot meta.chapterRefs }

/-! ## Document assembly -/

/-- The rendering environment: the course filesystem plus the abstract
HTML→Markdown translation (see the header note). -/
structure Env where
  fs : CourseFS
  htmlTranslate : String → String := fun s => s

/-- The leaf loop of `transformNodeToMarkdown` (level 3): each component
is parsed and rendered inside the try/catch; a parse error is caught
right there and replaced by the two-line fallback block, leaving every
other component untouched.  `idx` is the zero-based `componentIndex`. -/
def renderLeafBlocks (env : Env) (courseRoot : String) :
    List ComponentRef → Nat → List String
  | [], _ => []
  | component :: rest, idx =>
    (match parseComponent env.fs courseRoot component with
     | .ok componentIR => [renderComponent env.htmlTranslate componentIR]
     | .error msg =>
       ["#### Learning Content " ++ toString (idx + 1) ++ "\n",
        "*Content temporarily unavailable: " ++ msg ++ "*\n\n---\n"]) ++
      renderLeafBlocks env courseRoot rest (idx + 1)

/-- `"#".repeat(level + 1)`. -/
def headingMarks (n : Nat) : String :=
  String.mk (List.replicate n '#')

mutual

/-- `transformNodeToMarkdown` from the source: validate the node, emit a
heading for levels 1 and 2 only, recurse into `sequentials` (level 1) or
`verticals` (level 2), render components at level 3, and close a chapter
with a separator line. -/
def transformNodeToMarkdown (env : Env) (node : SNode) (nodeNumber : Nat)
    (courseRoot : String) (level : Nat) : Except String String :=
  match node with
  | .mk nid ntitle seqs verts comps =>
    if ntitle = "" || nid = "" then
      .error "Invalid node: title and id are required"
    else
      let headLines : List String :=
        if level ≤ 2 then [headingMarks (level + 1) ++ " " ++ ntitle ++ "\n"] else []
      if level < 3 then
        -- `node[childrenKey]`: `sequentials` at level 1, `verticals` at level 2
        match (if level = 1 then transformChildNodes env courseRoot seqs 0 (level + 1)
               else transformChildNodes env courseRoot verts 0 (level + 1)) with
        | .error e => .error e
        | .ok childMds =>
          .ok (joinNL (headLines ++ childMds ++ (if level = 1 then ["\n---\n"] else [])))
      else
        .ok (joinNL (headLines ++ renderLeafBlocks env courseRoot comps 0))

/-- The `forEach` over child nodes: each child is transformed with
`childIndex + 1` as its number; an error thrown by a child propagates. -/
def transformChildNodes (env : Env) (courseRoot : String) (nodes : List SNode)
    (childIndex : Nat) (level : Nat) : Except String (List String) :=
  match nodes with
  | [] => .ok []
  | n :: rest =>
    match transformNodeToMarkdown env n (childIndex + 1) courseRoot level with
    | .error e => .error e
    | .ok m =>
      match transformChildNodes env courseRoot rest (childIndex + 1) level with
      | .error e => .error e
      | .ok ms => .ok (m :: ms)

end

/-- `transformCourseToMarkdown` from the source: the LiaScript metadata
header, the level-1 course title, every chapter via
`transformNodeToMarkdown`, and the closing marker lines. -/
def transformCourseToMarkdown (env : Env) (courseTree : CourseTree)
    (courseRoot : String) : Except String String :=
  if courseTree.title = "" then
    .error "Invalid course tree: title and chapters are required"
  else if courseRoot = "" then
    .error "Course root directory is required"
  else
    match transformChildNodes env courseRoot courseTree.chapters 0 1 with
    | .error e => .error e
    | .ok chapterMds =>
      .ok (joinNL
        (["---", "author: Course Converter", "email: converter@example.com", "---", "",
          "# " ++ courseTree.title ++ "\n"] ++ chapterMds ++
          ["\n---\n", "*Course conversion completed*\n"]))

mutual

/-- The validity the assembler checks on its way down: every structural
node has a non-empty title and id. -/
def validNode : SNode → Bool
  | .mk nid ntitle seqs verts _ =>
    nid ≠ "" && ntitle ≠ "" && validNodes seqs && validNodes verts

/-- `validNode` on every node of a list. -/
def validNodes : List SNode → Bool
  | [] => true
  | n :: rest => validNode n && validNodes rest

end

/-! ## Claim-side document shape (for the document-assembly claims)

The definitions below restate the document layout the specification
describes — course title at heading level 1, chapter at level 2,
sequential at level 3, verticals transparent, children in stored order,
one trailing marker — and the theorems prove the assembler equal to
them. -/

/-- A vertical contributes no heading: just its components' blocks, in
the vertical's component order. -/
def verticalDoc (env : Env) (courseRoot : String) (v : SNode) : String :=
  joinNL (renderLeafBlocks env courseRoot v.components 0)

/-- A sequential: a level-3 heading, then its verticals in order. -/
def sequentialDoc (env : Env) (courseRoot : String) (s : SNode) : String :=
  joinNL (("### " ++ s.title ++ "\n") :: s.verticals.map (verticalDoc env courseRoot))

/-- A chapter: a level-2 heading, its sequentials in order, a closing
separator. -/
def chapterDoc (env : Env) (courseRoot : String) (c : SNode) : String :=
  joinNL ((("## " ++ c.title ++ "\n") :: c.sequentials.map (sequentialDoc env courseRoot)) ++
    ["\n---\n"])

/-- The whole document: metadata header, level-1 course title, chapters
in order, and the trailing marker appended exactly once. -/
def courseDoc (env : Env) (courseRoot : String) (t : CourseTree) : String :=
  joinNL (["---", "author: Course Converter", "email: converter@example.com", "---", "",
    "# " ++ t.title ++ "\n"] ++ t.chapters.map (chapterDoc env courseRoot) ++
    ["\n---\n", "*Course conversion completed*\n"])

/-! ## Claim-side helper definitions and concrete inputs -/

/-- The answer list the text-input encoding publishes: the trimmed
`answer` attribute first, then each `additional_answer` value trimmed, in
source order, with empty strings filtered out. -/
def textInputAnswers (sr : RNode) : List String :=
  (jsTrim (jsOrD sr.answer "") :: (toArray sr.additional_answer).map additionalAnswerText).filter
    (fun s => s ≠ "")

/-- A problem whose `multiplechoiceresponse.choicegroup` holds exactly one
`<choice correct="true">A</choice>` child — `fast-xml-parser` represents a
lone child as a single object, not an array. -/
def mcSingleChoiceEx : Problem :=
  { multiplechoiceresponse :=
      some { choicegroup := some ⟨JArr.single (ChoiceV.obj (some "true") (some "A"))⟩ } }

/-- Choice list `[A(false), B(true)]` in array form. -/
def mcBothMcgEx : ChoiceGroup :=
  ⟨JArr.arr [ChoiceV.obj (some "false") (some "A"), ChoiceV.obj (some "true") (some "B")]⟩

/-- Choice list `[C(true), D(true)]` in array form. -/
def mcBothCcgEx : ChoiceGroup :=
  ⟨JArr.arr [ChoiceV.obj (some "true") (some "C"), ChoiceV.obj (some "true") (some "D")]⟩

/-- A `multiplechoiceresponse` node with a prompt and `mcBothMcgEx`. -/
def mcBothMcEx : RNode := { p := some "P1", choicegroup := some mcBothMcgEx }

/-- A `choiceresponse` node with `mcBothCcgEx` as its checkbox group. -/
def mcBothCrEx : RNode := { checkboxgroup := some mcBothCcgEx }

/-- A problem exposing both shapes with array-form choice lists:
`multiplechoiceresponse.choicegroup` with `[A(false), B(true)]` and
`choiceresponse.checkboxgroup` with `[C(true), D(true)]`. -/
def mcBothEx : Problem :=
  { multiplechoiceresponse := some mcBothMcEx, choiceresponse := some mcBothCrEx }

/-- A checkbox-only multi-select problem: a `choiceresponse.checkboxgroup`
with `[C(true), D(true)]` and no `multiplechoiceresponse`. -/
def checkboxOnlyEx : Problem :=
  { choiceresponse := some mcBothCrEx }

/-- An array-shaped `multiplechoiceresponse` choice list paired with a
`choiceresponse` whose checkbox group holds a lone (non-array) choice. -/
def mixedShapeEx : Problem :=
  { multiplechoiceresponse := some mcBothMcEx,
    choiceresponse :=
      some { checkboxgroup := some ⟨JArr.single (ChoiceV.obj (some "true") (some "E"))⟩ } }

/-- The bullet lines the multiple-choice encoding assigns to one
choice-group value: one `- [[X]] <text>` / `- [[ ]] <text>` bullet per
choice in source order when the parsed `choice` value is array-shaped,
and none otherwise (a lone `<choice>` child parses as a single object). -/
def claimedBullets (g : Option ChoiceGroup) : List String :=
  match g with
  | some cg =>
    match cg.choice with
    | JArr.arr cs =>
      cs.map (fun c =>
        if choiceIsCorrect c then "- [[X]] " ++ choiceText c
        else "- [[ ]] " ++ choiceText c)
    | _ => []
  | none => []

/-- The `multiplechoiceresponse` block of the multiple-choice encoding:
prompt, then the `choicegroup` bullets, then the hints (empty when the
element is absent). -/
def claimedMcLines (content : Problem) : List String :=
  match content.multiplechoiceresponse with
  | some mc => promptLines mc ++ claimedBullets mc.choicegroup ++ hintLines mc
  | none => []

/-- The `choiceresponse` block of the multiple-choice encoding: prompt,
then the `checkboxgroup` bullets, then the hints (empty when the element
is absent). -/
def claimedCheckboxLines (content : Problem) : List String :=
  match content.choiceresponse with
  | some cr => promptLines cr ++ claimedBullets cr.checkboxgroup ++ hintLines cr
  | none => []

/-- A problem that contains both a `multiplechoiceresponse` and a
`choiceresponse` with neither `checkboxgroup` nor `choicegroup` child. -/
def mcAndBareChoiceEx : Problem :=
  { multiplechoiceresponse := some {}, choiceresponse := some {} }

/-- A problem with only a bare `choiceresponse` (neither group child). -/
def bareChoiceEx : Problem :=
  { choiceresponse := some {} }

/-- A `stringresponse` whose `answer` attribute carries a trailing
space. -/
def textTrailingSpaceEx : Problem :=
  { stringresponse := some { answer := some "52 " } }

/-- The specification's text-input example: `answer="52"` with one
`additional_answer answer="fifty-two"`. -/
def textTwoAnswersEx : Problem :=
  { stringresponse :=
      some { answer := some "52",
             additional_answer := JArr.single (AddAnsV.obj (some "fifty-two")) } }

/-- An empty course filesystem. -/
def fsEmptyEx : CourseFS := {}

/-- A filesystem holding an `html/h1.xml` whose root element is not
`html`/`HTML` (so its metadata node contributes nothing) together with
its `html/h1.html` body, and nothing else. -/
def fsHtmlBadRootEx : CourseFS :=
  { htmlXmlFile := fun i => if i = "h1" then some {} else none,
    htmlBodyFile := fun i => if i = "h1" then some "<p>x</p>" else none }

/-- Environment over `fsHtmlBadRootEx` with the identity translation. -/
def envHtmlBadRootEx : Env := { fs := fsHtmlBadRootEx }

/-- A vertical holding a lone problem component whose backing file is
absent from `fsHtmlBadRootEx`. -/
def vMissingProblemEx : SNode :=
  .mk "v1" "V" [] [] [{ kind := "problem", id := "p1" }]

/-- The `course.xml` node of `fsStructEx`. -/
def fsStructCourseEx : CourseNode :=
  { url_name := some "run1", attr_display_name := some "T",
    chapter := JArr.arr [{ url_name := some "c1" }, { url_name := some "c2" }] }

/-- The `chapter/c2.xml` node of `fsStructEx`. -/
def fsStructChapterEx : ChapterNode :=
  { attr_display_name := some "Chapter Two",
    sequential := JArr.single ({ url_name := some "s1" } : RefItem) }

/-- The `sequential/s1.xml` node of `fsStructEx`. -/
def fsStructSequentialEx : SequentialNode :=
  { attr_display_name := some "Seq One",
    vertical := JArr.arr [{ url_name := some "u1" }, { url_name := some "u9" }] }

/-- The `vertical/u1.xml` node of `fsStructEx`. -/
def fsStructVerticalEx : VerticalNode :=
  { attr_display_name := some "Unit One" }

/-- A filesystem for the structural-placeholder witness: `chapter/c2.xml`,
`sequential/s1.xml` and `vertical/u1.xml` exist, while `c1` and `u9` are
missing; `course.xml` is present. -/
def fsStructEx : CourseFS :=
  { courseXml := some fsStructCourseEx,
    chapterFile := fun r => if r = "c2" then some fsStructChapterEx else none,
    sequentialFile := fun r => if r = "s1" then some fsStructSequentialEx else none,
    verticalFile := fun r => if r = "u1" then some fsStructVerticalEx else none }

/-- Environment over `fsStructEx`. -/
def envStructEx : Env := { fs := fsStructEx }

/-- A small valid course tree: one chapter, one sequential, one vertical
with no components. -/
def treeSmallEx : CourseTree :=
  { id := "cid", title := "Course T",
    chapters := [.mk "c1" "Ch One" [.mk "s1" "Seq One" [] [.mk "u1" "Unit One" [] [] []] []] [] []] }

/-- An unrecognized-kind component reference. -/
def unknownKindRefEx : ComponentRef := { kind := "discussion", id := "d1" }

/-! # Theorems

## `sanitizeFileName` is idempotent (claim C8) -/

theorem mem_of_mem_dropWhile {α : Type} (p : α → Bool) :
    ∀ (l : List α) (c : α), c ∈ l.dropWhile p → c ∈ l := by
  intro l
  induction l with
  | nil => intro c h; exact absurd h (List.not_mem_nil c)
  | cons a as ih =>
    intro c h
    rw [List.dropWhile_cons] at h
    by_cases hp : p a = true
    · simp only [hp, if_true] at h
      exact List.mem_cons_of_mem a (ih c h)
    · simp only [hp, if_false] at h
      exact h

theorem head?_dropWhile {α : Type} (p : α → Bool) :
    ∀ (l : List α) (c : α), (l.dropWhile p).head? = some c → p c = false := by
  intro l
  induction l with
  | nil => intro c h; simp [List.dropWhile] at h
  | cons a as ih =>
    intro c h
    rw [List.dropWhile_cons] at h
    cases hp : p a with
    | true =>
      rw [hp, if_pos rfl] at h
      exact ih c h
    | false =>
      rw [hp, if_neg Bool.false_ne_true, List.head?_cons, Option.some.injEq] at h
      rw [← h]
      exact hp

theorem dropWhile_eq_self_of_head {α : Type} (p : α → Bool) (l : List α)
    (h : ∀ c, l.head? = some c → p c = false) : l.dropWhile p = l := by
  cases l with
  | nil => rfl
  | cons a as =>
    have ha : p a = false := h a rfl
    simp [List.dropWhile_cons, ha]

theorem mem_trimUnderscores (l : List Char) (c : Char) (h : c ∈ trimUnderscores l) :
    c ∈ l := by
  unfold trimUnderscores at h
  rw [List.mem_reverse] at h
  have h1 := mem_of_mem_dropWhile _ _ _ h
  rw [List.mem_reverse] at h1
  exact mem_of_mem_dropWhile _ _ _ h1

theorem dropWhile_split (p : Char → Bool) (l : List Char) :
    l.dropWhile p =
      ((l.dropWhile p).reverse.dropWhile p).reverse ++
        ((l.dropWhile p).reverse.takeWhile p).reverse := by
  have h2 := List.takeWhile_append_dropWhile (p := p) (l := (l.dropWhile p).reverse)
  calc l.dropWhile p
      = (l.dropWhile p).reverse.reverse := (List.reverse_reverse _).symm
    _ = (((l.dropWhile p).reverse.takeWhile p) ++
          ((l.dropWhile p).reverse.dropWhile p)).reverse := by rw [h2]
    _ = _ := by rw [List.reverse_append]

theorem trimUnderscores_decomp (l : List Char) :
    ∃ pre post, l = pre ++ (trimUnderscores l ++ post) := by
  refine ⟨l.takeWhile (fun c => c == '_'),
    ((l.dropWhile (fun c => c == '_')).reverse.takeWhile (fun c => c == '_')).reverse, ?_⟩
  have h1 := List.takeWhile_append_dropWhile (p := fun c => c == '_') (l := l)
  have h3 := dropWhile_split (fun c => c == '_') l
  have : l.takeWhile (fun c => c == '_') ++ (trimUnderscores l ++
      ((l.dropWhile (fun c => c == '_')).reverse.takeWhile (fun c => c == '_')).reverse) = l := by
    unfold trimUnderscores
    rw [← h3]
    exact h1
  exact this.symm

theorem noDoubleUnd_tail (a : Char) (l : List Char) (h : noDoubleUnd (a :: l) = true) :
    noDoubleUnd l = true := by
  cases l with
  | nil => rfl
  | cons b rest =>
    rw [noDoubleUnd, Bool.and_eq_true] at h
    exact h.2

theorem noDoubleUnd_head (a : Char) (l : List Char) (h : noDoubleUnd (a :: l) = true)
    (ha : a = '_') : l.head? ≠ some '_' := by
  cases l with
  | nil => simp
  | cons b rest =>
    rw [noDoubleUnd, Bool.and_eq_true] at h
    intro hb
    rw [List.head?_cons, Option.some.injEq] at hb
    have h1 := h.1
    rw [ha, hb] at h1
    simp at h1

theorem noDoubleUnd_cons_of (a : Char) (l : List Char)
    (h : a = '_' → l.head? ≠ some '_') (hl : noDoubleUnd l = true) :
    noDoubleUnd (a :: l) = true := by
  cases l with
  | nil => rfl
  | cons b rest =>
    rw [noDoubleUnd, Bool.and_eq_true]
    refine ⟨?_, hl⟩
    by_cases ha : a = '_'
    · have hb : b ≠ '_' := by
        intro hb
        exact h ha (by rw [List.head?_cons, hb])
      simp [hb]
    · simp [ha]

theorem noDoubleUnd_append_left :
    ∀ (l₁ l₂ : List Char), noDoubleUnd (l₁ ++ l₂) = true → noDoubleUnd l₁ = true
  | [], _, _ => rfl
  | [a], _, _ => rfl
  | a :: b :: rest, l₂, h => by
    rw [List.cons_append, List.cons_append] at h
    rw [noDoubleUnd, Bool.and_eq_true] at h ⊢
    refine ⟨h.1, ?_⟩
    have := noDoubleUnd_append_left (b :: rest) l₂ (by rw [List.cons_append]; exact h.2)
    exact this

theorem noDoubleUnd_append_right :
    ∀ (l₁ l₂ : List Char), noDoubleUnd (l₁ ++ l₂) = true → noDoubleUnd l₂ = true := by
  intro l₁
  induction l₁ with
  | nil => intro l₂ h; exact h
  | cons a as ih =>
    intro l₂ h
    rw [List.cons_append] at h
    exact ih l₂ (noDoubleUnd_tail _ _ h)

theorem noDoubleUnd_trimUnderscores (l : List Char) (h : noDoubleUnd l = true) :
    noDoubleUnd (trimUnderscores l) = true := by
  obtain ⟨pre, post, hd⟩ := trimUnderscores_decomp l
  rw [hd] at h
  exact noDoubleUnd_append_left _ _ (noDoubleUnd_append_right _ _ h)

theorem head_collapseUnderscores_true :
    ∀ (l : List Char), (collapseUnderscores true l).head? ≠ some '_'
  | [] => by simp [collapseUnderscores]
  | c :: cs => by
    rw [collapseUnderscores]
    by_cases hc : c = '_'
    · rw [if_pos hc, if_pos rfl]
      exact head_collapseUnderscores_true cs
    · rw [if_neg hc, List.head?_cons]
      intro hcontra
      rw [Option.some.injEq] at hcontra
      exact hc hcontra

theorem noDoubleUnd_collapseUnderscores :
    ∀ (b : Bool) (l : List Char), noDoubleUnd (collapseUnderscores b l) = true := by
  intro b l
  induction l generalizing b with
  | nil => rfl
  | cons c cs ih =>
    rw [collapseUnderscores]
    by_cases hc : c = '_'
    · rw [if_pos hc]
      cases b with
      | true =>
        rw [if_pos rfl]
        exact ih true
      | false =>
        rw [if_neg Bool.false_ne_true]
        exact noDoubleUnd_cons_of _ _ (fun _ => head_collapseUnderscores_true cs) (ih true)
    · rw [if_neg hc]
      exact noDoubleUnd_cons_of _ _ (fun hfals => absurd hfals hc) (ih false)

theorem collapseUnderscores_true_eq_false (l : List Char) (h : l.head? ≠ some '_') :
    collapseUnderscores true l = collapseUnderscores false l := by
  cases l with
  | nil => rfl
  | cons c cs =>
    have hc : ¬ c = '_' := by
      intro hc
      exact h (by rw [List.head?_cons, hc])
    rw [collapseUnderscores, collapseUnderscores, if_neg hc, if_neg hc]

theorem collapseUnderscores_eq_self :
    ∀ (l : List Char), noDoubleUnd l = true → collapseUnderscores false l = l := by
  intro l
  induction l with
  | nil => intro _; rfl
  | cons c cs ih =>
    intro h
    rw [collapseUnderscores]
    by_cases hc : c = '_'
    · rw [if_pos hc, if_neg Bool.false_ne_true]
      have hhead : cs.head? ≠ some '_' := noDoubleUnd_head c cs h hc
      rw [collapseUnderscores_true_eq_false cs hhead, ih (noDoubleUnd_tail _ _ h), hc]
    · rw [if_neg hc, ih (noDoubleUnd_tail _ _ h)]

theorem mem_collapseDisallowed :
    ∀ (b : Bool) (l : List Char) (c : Char), c ∈ collapseDisallowed b l →
      isAllowedChar c = true := by
  intro b l
  induction l generalizing b with
  | nil => intro c h; exact absurd h (List.not_mem_nil c)
  | cons d ds ih =>
    intro c h
    rw [collapseDisallowed] at h
    by_cases hd : isAllowedChar d = true
    · rw [if_pos hd] at h
      rcases List.mem_cons.mp h with hc | hc
      · rw [hc]; exact hd
      · exact ih false c hc
    · rw [if_neg hd] at h
      cases b with
      | true =>
        rw [if_pos rfl] at h
        exact ih true c h
      | false =>
        rw [if_neg Bool.false_ne_true] at h
        rcases List.mem_cons.mp h with hc | hc
        · rw [hc]; decide
        · exact ih true c hc

theorem collapseDisallowed_eq_self :
    ∀ (l : List Char), (∀ c ∈ l, isAllowedChar c = true) → collapseDisallowed false l = l := by
  intro l
  induction l with
  | nil => intro _; rfl
  | cons d ds ih =>
    intro h
    rw [collapseDisallowed]
    have hd : isAllowedChar d = true := h d (List.mem_cons_self d ds)
    rw [if_pos hd, ih (fun c hc => h c (List.mem_cons_of_mem d hc))]

theorem mem_collapseUnderscores :
    ∀ (b : Bool) (l : List Char) (c : Char), c ∈ collapseUnderscores b l →
      c ∈ l ∨ c = '_' := by
  intro b l
  induction l generalizing b with
  | nil => intro c h; exact absurd h (List.not_mem_nil c)
  | cons d ds ih =>
    intro c h
    rw [collapseUnderscores] at h
    by_cases hd : d = '_'
    · rw [if_pos hd] at h
      cases b with
      | true =>
        rw [if_pos rfl] at h
        rcases ih true c h with hc | hc
        · exact Or.inl (List.mem_cons_of_mem _ hc)
        · exact Or.inr hc
      | false =>
        rw [if_neg Bool.false_ne_true] at h
        rcases List.mem_cons.mp h with hc | hc
        · exact Or.inr hc
        · rcases ih true c hc with hc2 | hc2
          · exact Or.inl (List.mem_cons_of_mem _ hc2)
          · exact Or.inr hc2
    · rw [if_neg hd] at h
      rcases List.mem_cons.mp h with hc | hc
      · exact Or.inl (by rw [hc]; exact List.mem_cons_self d ds)
      · rcases ih false c hc with hc2 | hc2
        · exact Or.inl (List.mem_cons_of_mem _ hc2)
        · exact Or.inr hc2

theorem head?_trimUnderscores (l : List Char) (c : Char)
    (h : (trimUnderscores l).head? = some c) : c ≠ '_' := by
  obtain ⟨pre, post, hd⟩ := trimUnderscores_decomp l
  cases htl : trimUnderscores l with
  | nil => rw [htl] at h; exact absurd h (by simp)
  | cons t ts =>
    rw [htl, List.head?_cons, Option.some.injEq] at h
    have hm : (l.dropWhile (fun x => x == '_')).head? = some t := by
      have hdm : l.dropWhile (fun x => x == '_') =
          trimUnderscores l ++
            ((l.dropWhile (fun x => x == '_')).reverse.takeWhile (fun x => x == '_')).reverse := by
        unfold trimUnderscores
        have h2 := List.takeWhile_append_dropWhile (p := fun x => x == '_')
          (l := (l.dropWhile (fun x => x == '_')).reverse)
        calc l.dropWhile (fun x => x == '_')
            = (l.dropWhile (fun x => x == '_')).reverse.reverse := (List.reverse_reverse _).symm
          _ = (((l.dropWhile (fun x => x == '_')).reverse.takeWhile (fun x => x == '_')) ++
                ((l.dropWhile (fun x => x == '_')).reverse.dropWhile (fun x => x == '_'))).reverse := by
                rw [h2]
          _ = _ := by rw [List.reverse_append]
      rw [hdm, htl, List.cons_append, List.head?_cons]
    have := head?_dropWhile (fun x => x == '_') l t hm
    rw [← h]
    intro hcontra
    rw [hcontra] at this
    simp at this

theorem getLast?_trimUnderscores (l : List Char) (c : Char)
    (h : (trimUnderscores l).getLast? = some c) : c ≠ '_' := by
  unfold trimUnderscores at h
  rw [List.getLast?_reverse] at h
  have := head?_dropWhile (fun x => x == '_') _ c h
  intro hcontra
  rw [hcontra] at this
  simp at this

theorem trimUnderscores_eq_self (l : List Char)
    (hhead : ∀ c, l.head? = some c → c ≠ '_')
    (hlast : ∀ c, l.getLast? = some c → c ≠ '_') : trimUnderscores l = l := by
  unfold trimUnderscores
  have h1 : l.dropWhile (fun c => c == '_') = l := by
    refine dropWhile_eq_self_of_head _ _ ?_
    intro c hc
    have := hhead c hc
    simp [this]
  rw [h1]
  have h2 : l.reverse.dropWhile (fun c => c == '_') = l.reverse := by
    refine dropWhile_eq_self_of_head _ _ ?_
    intro c hc
    rw [List.head?_reverse] at hc
    have := hlast c hc
    simp [this]
  rw [h2, List.reverse_reverse]

/-- Claim C8: `sanitizeFileName` is idempotent — applying the
sanitization rule (collapse runs of characters outside
`[A-Za-z0-9._-]` to a single underscore, collapse underscore runs, trim
leading and trailing underscores) twice equals applying it once, for
every input string. -/
theorem sanitizeFileName_idempotent (s : String) :
    sanitizeFileName (sanitizeFileName s) = sanitizeFileName s := by
  show String.mk (trimUnderscores (collapseUnderscores false (collapseDisallowed false
    (sanitizeFileName s).data))) = sanitizeFileName s
  have hdata : (sanitizeFileName s).data =
      trimUnderscores (collapseUnderscores false (collapseDisallowed false s.data)) := rfl
  have hall : ∀ c ∈ (sanitizeFileName s).data, isAllowedChar c = true := by
    intro c hc
    rw [hdata] at hc
    have h1 := mem_trimUnderscores _ _ hc
    rcases mem_collapseUnderscores _ _ _ h1 with h2 | h2
    · exact mem_collapseDisallowed _ _ _ h2
    · rw [h2]; decide
  have hnd : noDoubleUnd (sanitizeFileName s).data = true := by
    rw [hdata]
    exact noDoubleUnd_trimUnderscores _ (noDoubleUnd_collapseUnderscores false _)
  rw [collapseDisallowed_eq_self _ hall, collapseUnderscores_eq_self _ hnd]
  have htrim : trimUnderscores (sanitizeFileName s).data = (sanitizeFileName s).data := by
    refine trimUnderscores_eq_self _ ?_ ?_
    · intro c hc
      rw [hdata] at hc
      exact head?_trimUnderscores _ _ hc
    · intro c hc
      rw [hdata] at hc
      exact getLast?_trimUnderscores _ _ hc
  rw [htrim]

/-! ## Problem-type detection (claims C2 and C9) -/

/-- Claim C2: `determineProblemType` returns the subtype by structural
inspection only, first match winning in this order: `multiplechoiceresponse`
→ multiple_choice; `choiceresponse` with a `checkboxgroup` child →
multiple_choice, with a `choicegroup` child → choice; `optionresponse` →
selection; `stringresponse` → text_input; `numericalresponse` →
number_input; `formularesponse` → formula; `coderesponse` → code;
otherwise unknown.  The result never depends on the component's display
name (last conjunct) and the function is never passed the component id at
all. -/
theorem determineProblemType_structural (p : Problem) :
    (p.multiplechoiceresponse.isSome → determineProblemType p = "multiple_choice")
    ∧ (∀ cr, p.multiplechoiceresponse = none → p.choiceresponse = some cr →
        ((cr.checkboxgroup.isSome → determineProblemType p = "multiple_choice")
          ∧ (cr.checkboxgroup = none → cr.choicegroup.isSome →
              determineProblemType p = "choice")))
    ∧ (p.multiplechoiceresponse = none → p.choiceresponse = none →
        p.optionresponse.isSome → determineProblemType p = "selection")
    ∧ (p.multiplechoiceresponse = none → p.choiceresponse = none →
        p.optionresponse = none → p.stringresponse.isSome →
        determineProblemType p = "text_input")
    ∧ (p.multiplechoiceresponse = none → p.choiceresponse = none →
        p.optionresponse = none → p.stringresponse = none →
        p.numericalresponse.isSome → determineProblemType p = "number_input")
    ∧ (p.multiplechoiceresponse = none → p.choiceresponse = none →
        p.optionresponse = none → p.stringresponse = none →
        p.numericalresponse = none → p.formularesponse = true →
        determineProblemType p = "formula")
    ∧ (p.multiplechoiceresponse = none → p.choiceresponse = none →
        p.optionresponse = none → p.stringresponse = none →
        p.numericalresponse = none → p.formularesponse = false →
        p.coderesponse = true → determineProblemType p = "code")
    ∧ (p.multiplechoiceresponse = none → p.choiceresponse = none →
        p.optionresponse = none → p.stringresponse = none →
        p.numericalresponse = none → p.formularesponse = false →
        p.coderesponse = false → determineProblemType p = "unknown")
    ∧ (∀ d, determineProblemType { p with display_name := d } = determineProblemType p) := by
  refine ⟨?_, ?_, ?_, ?_, ?_, ?_, ?_, ?_, ?_⟩
  · intro h
    obtain ⟨x, hx⟩ := Option.isSome_iff_exists.mp h
    simp [determineProblemType, hx]
  · intro cr h1 h2
    refine ⟨?_, ?_⟩
    · intro h3
      obtain ⟨x, hx⟩ := Option.isSome_iff_exists.mp h3
      simp [determineProblemType, h1, h2, hx]
    · intro h3 h4
      obtain ⟨x, hx⟩ := Option.isSome_iff_exists.mp h4
      simp [determineProblemType, h1, h2, h3, hx]
  · intro h1 h2 h3
    obtain ⟨x, hx⟩ := Option.isSome_iff_exists.mp h3
    simp [determineProblemType, h1, h2, hx]
  · intro h1 h2 h3 h4
    obtain ⟨x, hx⟩ := Option.isSome_iff_exists.mp h4
    simp [determineProblemType, h1, h2, h3, hx]
  · intro h1 h2 h3 h4 h5
    obtain ⟨x, hx⟩ := Option.isSome_iff_exists.mp h5
    simp [determineProblemType, h1, h2, h3, h4, hx]
  · intro h1 h2 h3 h4 h5 h6
    simp [determineProblemType, h1, h2, h3, h4, h5, h6]
  · intro h1 h2 h3 h4 h5 h6 h7
    simp [determineProblemType, h1, h2, h3, h4, h5, h6, h7]
  · intro h1 h2 h3 h4 h5 h6 h7
    simp [determineProblemType, h1, h2, h3, h4, h5, h6, h7]
  · intro d
    rfl

/-- Witness for claim C2: the detection clauses at concrete problems. -/
theorem determineProblemType_structural_witness :
    determineProblemType { multiplechoiceresponse := some {} } = "multiple_choice"
    ∧ determineProblemType { choiceresponse := some { checkboxgroup := some ⟨JArr.undef⟩ } } =
        "multiple_choice"
    ∧ determineProblemType { optionresponse := some {} } = "selection"
    ∧ determineProblemType {} = "unknown" := by
  refine ⟨(determineProblemType_structural _).1 rfl, ?_, ?_, ?_⟩
  · exact ((determineProblemType_structural _).2.1
      { checkboxgroup := some ⟨JArr.undef⟩ } rfl rfl).1 rfl
  · exact (determineProblemType_structural _).2.2.1 rfl rfl rfl
  · exact (determineProblemType_structural _).2.2.2.2.2.2.2.1 rfl rfl rfl rfl rfl rfl rfl

/-- Claim C9 counterexample: in a problem that contains both a
`multiplechoiceresponse` and a bare `choiceresponse` (neither
`checkboxgroup` nor `choicegroup` child), the `choiceresponse` premise of
the claim holds but `determineProblemType` returns `"multiple_choice"`,
not `"choice"` — the earlier `multiplechoiceresponse` branch wins. -/
theorem determineProblemType_bare_choiceresponse_cex :
    mcAndBareChoiceEx.choiceresponse = some {}
    ∧ ({} : RNode).checkboxgroup = none
    ∧ ({} : RNode).choicegroup = none
    ∧ determineProblemType mcAndBareChoiceEx = "multiple_choice"
    ∧ determineProblemType mcAndBareChoiceEx ≠ "choice" := by
  refine ⟨rfl, rfl, rfl, rfl, ?_⟩
  decide

/-- Claim C9 (amended): when the `choiceresponse` detection step is
reached — no `multiplechoiceresponse` is present — and the
`choiceresponse` contains neither a `checkboxgroup` nor a `choicegroup`
child, `determineProblemType` returns `"choice"`, the single-select
default. -/
theorem determineProblemType_bare_choiceresponse (p : Problem) (cr : RNode)
    (hmc : p.multiplechoiceresponse = none) (hcr : p.choiceresponse = some cr)
    (hcb : cr.checkboxgroup = none) (hcg : cr.choicegroup = none) :
    determineProblemType p = "choice" := by
  simp [determineProblemType, hmc, hcr, hcb, hcg]

/-- Witness for claim C9 (amended): the bare-`choiceresponse` problem. -/
theorem determineProblemType_bare_choiceresponse_witness :
    determineProblemType bareChoiceEx = "choice" :=
  determineProblemType_bare_choiceresponse bareChoiceEx {} rfl rfl rfl rfl

/-! ## Multiple-choice rendering (claim C1) -/

theorem mcBullet_eq (c : ChoiceV) :
    mcBullet c =
      if choiceIsCorrect c then "- [[X]] " ++ choiceText c
      else "- [[ ]] " ++ choiceText c := by
  by_cases h : choiceIsCorrect c = true
  · rw [mcBullet, if_pos h, if_pos h]
    rfl
  · rw [mcBullet, if_neg h, if_neg h]
    rfl

/-- Claim C1 counterexample: a `multiplechoiceresponse` whose choice group
holds exactly one choice (marked `correct="true"` with text `A`) renders
no bullet line at all — `fast-xml-parser` yields a single object for a
lone `<choice>` child and the renderer iterates only `Array.isArray`
values — although the claim demands one `- [[X]] A` bullet. -/
theorem renderMultipleChoiceProblem_single_choice_cex :
    mcSingleChoiceEx.multiplechoiceresponse =
      some { choicegroup := some ⟨JArr.single (ChoiceV.obj (some "true") (some "A"))⟩ }
    ∧ renderMultipleChoiceProblem mcSingleChoiceEx "Quiz" = ""
    ∧ strContains "- [[X]] A" (renderMultipleChoiceProblem mcSingleChoiceEx "Quiz") = false := by
  refine ⟨rfl, rfl, ?_⟩
  decide

theorem groupBullets_eq_claimedBullets (g : Option ChoiceGroup) :
    groupBullets mcBullet g = claimedBullets g := by
  have hfun : mcBullet = fun c =>
      if choiceIsCorrect c then "- [[X]] " ++ choiceText c
      else "- [[ ]] " ++ choiceText c := funext mcBullet_eq
  cases g with
  | none => rfl
  | some cg =>
    cases cg with
    | mk ch =>
      cases ch with
      | undef => rfl
      | single a => rfl
      | arr cs =>
        simp only [groupBullets, claimedBullets, hfun]

/-- Claim C1 (amended): for every problem content,
`renderMultipleChoiceProblem` renders the `multiplechoiceresponse` block
first and the `choiceresponse` block second, each block being its prompt,
then its choice list's bullets, then its hints; a choice list contributes
bullets exactly when its parsed `choice` value is array-shaped (two or
more `<choice>` children — a lone choice parses as a single object and
renders no bullet), in which case it contributes one bullet per choice in
source order, `- [[X]] <text>` when the choice's `correct` attribute
equals `"true"`, else `- [[ ]] <text>` (see `claimedBullets`); either
shape may appear alone — in particular a checkbox-only multi-select
renders every `correct="true"` choice as `[[X]]`. -/
theorem renderMultipleChoiceProblem_bullets (content : Problem) (displayName : String) :
    renderMultipleChoiceProblem content displayName =
      joinNL (claimedMcLines content ++ claimedCheckboxLines content) := by
  cases hmc : content.multiplechoiceresponse with
  | none =>
    cases hcr : content.choiceresponse with
    | none =>
      simp only [renderMultipleChoiceProblem, claimedMcLines, claimedCheckboxLines, hmc, hcr]
    | some cr =>
      simp only [renderMultipleChoiceProblem, claimedMcLines, claimedCheckboxLines, hmc, hcr,
        groupBullets_eq_claimedBullets]
  | some mc =>
    cases hcr : content.choiceresponse with
    | none =>
      simp only [renderMultipleChoiceProblem, claimedMcLines, claimedCheckboxLines, hmc, hcr,
        groupBullets_eq_claimedBullets]
    | some cr =>
      simp only [renderMultipleChoiceProblem, claimedMcLines, claimedCheckboxLines, hmc, hcr,
        groupBullets_eq_claimedBullets]

/-- Witness for claim C1 (amended), applying the theorem at three
shapes: a checkbox-only multi-select (`C` and `D` both `correct="true"`,
both rendered `[[X]]`), the both-shapes example (the
`multiplechoiceresponse` bullets `A`/`B` before the checkbox bullets
`C`/`D`), and an array-shaped list paired with a lone (non-array)
checkbox choice, which contributes no bullet. -/
theorem renderMultipleChoiceProblem_bullets_witness :
    renderMultipleChoiceProblem checkboxOnlyEx "d" = "- [[X]] C\n- [[X]] D"
    ∧ renderMultipleChoiceProblem mcBothEx "d" =
        "P1\n\n- [[ ]] A\n- [[X]] B\n- [[X]] C\n- [[X]] D"
    ∧ renderMultipleChoiceProblem mixedShapeEx "d" = "P1\n\n- [[ ]] A\n- [[X]] B" := by
  refine ⟨?_, ?_, ?_⟩
  · rw [renderMultipleChoiceProblem_bullets checkboxOnlyEx "d"]
    rfl
  · rw [renderMultipleChoiceProblem_bullets mcBothEx "d"]
    rfl
  · rw [renderMultipleChoiceProblem_bullets mixedShapeEx "d"]
    rfl

/-! ## Text-input rendering (claim C5) -/

theorem textInputAnswers_eq (sr : RNode) :
    (jsTrim (jsOrD sr.answer "") ::
        (((toArray sr.additional_answer).map additionalAnswerText).filter
          (fun s => s ≠ ""))).filter (fun s => s ≠ "") = textInputAnswers sr := by
  rw [textInputAnswers]
  simp [List.filter_cons, List.filter_filter]

/-- Claim C5 counterexample: with `answer="52 "` (a trailing space in the
attribute) the renderer emits the trimmed `    [[52]]` line, not a line
carrying the raw attribute value `52 ` — the claim's "primary is the
stringresponse's answer attribute" fails for attributes with surrounding
whitespace. -/
theorem renderTextInputProblem_trim_cex :
    textTrailingSpaceEx.stringresponse = some { answer := some "52 " }
    ∧ renderTextInputProblem textTrailingSpaceEx "d" = "\n    [[52]]\n"
    ∧ strContains "[[52 ]]" (renderTextInputProblem textTrailingSpaceEx "d") = false := by
  refine ⟨rfl, rfl, ?_⟩
  decide

/-- Claim C5 (amended): `renderTextInputProblem` emits, after the prompt,
one indented answer line `    [[primary | variant1 | …]]` whose entries
are the whitespace-trimmed `answer` attribute followed by the trimmed
`additional_answer` values (an element's own `answer` attribute, or the
bare text of a text-form node), in source order with empty strings
filtered out; when no answers remain, the line is `    [[ ]]`; the hints
follow. -/
theorem renderTextInputProblem_answerLine (content : Problem) (displayName : String)
    (sr : RNode) (hsr : content.stringresponse = some sr) :
    renderTextInputProblem content displayName =
      joinNL (promptLines sr ++
        (if textInputAnswers sr = [] then ["\n    [[ ]]\n"]
         else ["\n    [[" ++ joinSep " | " (textInputAnswers sr) ++ "]]\n"]) ++
        hintLines sr) := by
  have he := textInputAnswers_eq sr
  cases han : textInputAnswers sr with
  | nil =>
    rw [han] at he
    simp only [renderTextInputProblem, hsr, he, han]
    simp
  | cons a as =>
    rw [han] at he
    simp only [renderTextInputProblem, hsr, he, han]
    simp

/-- Witness for claim C5 (amended): `answer="52"` with one
`additional_answer answer="fifty-two"` yields `    [[52 | fifty-two]]`;
a `stringresponse` with no answers yields `    [[ ]]`. -/
theorem renderTextInputProblem_answerLine_witness :
    renderTextInputProblem textTwoAnswersEx "d" = "\n    [[52 | fifty-two]]\n"
    ∧ renderTextInputProblem { stringresponse := some ({} : RNode) } "d" = "\n    [[ ]]\n" := by
  constructor
  · rw [renderTextInputProblem_answerLine textTwoAnswersEx "d"
      { answer := some "52", additional_answer := JArr.single (AddAnsV.obj (some "fifty-two")) }
      rfl]
    rfl
  · rw [renderTextInputProblem_answerLine { stringresponse := some ({} : RNode) } "d" {} rfl]
    rfl

/-! ## Unknown component kinds (claim C6) -/

theorem strContains_go_self (p : List Char) :
    ∀ (a b : List Char), strContains.go p (a ++ (p ++ b)) = true := by
  intro a
  induction a with
  | nil =>
    intro b
    rw [List.nil_append]
    cases hpb : p ++ b with
    | nil =>
      have hp : p = [] := (List.append_eq_nil.mp hpb).1
      rw [strContains.go, hp]
      rfl
    | cons c cs =>
      rw [strContains.go]
      have hpre : p.isPrefixOf (c :: cs) = true := by
        rw [← hpb]
        exact List.isPrefixOf_iff_prefix.mpr (List.prefix_append p b)
      rw [hpre, Bool.true_or]
  | cons x xs ih =>
    intro b
    rw [List.cons_append, strContains.go, ih b, Bool.or_true]

theorem strContains_of_infix (k s : String) (h : k.data <:+: s.data) :
    strContains k s = true := by
  obtain ⟨a, b, hab⟩ := h
  rw [strContains, ← hab, List.append_assoc]
  exact strContains_go_self k.data a b

/-- Claim C6 counterexample: the empty string is not one of the four
recognized kinds, yet `parseComponent` throws its parameter-validation
error for a reference with an empty kind instead of returning the
`Unknown` placeholder. -/
theorem parseComponent_empty_kind_cex :
    jsToLower "" ∉ (["html", "problem", "video", "about"] : List String)
    ∧ parseComponent fsEmptyEx "root" { kind := "", id := "x" } =
        .error "Invalid component: kind and id are required" := by
  exact ⟨by decide, rfl⟩

/-- Claim C6 (amended): for every component reference with a non-empty
kind and id whose kind is not one of `html`, `problem`, `video`, `about`
(compared case-insensitively), and a non-empty course root,
`parseComponent` returns the `Unknown` placeholder IR without an error,
and rendering that IR yields a string containing both the literal kind
and the literal id (a reference with an empty kind or id, or an empty
course root, instead throws a parameter-validation error). -/
theorem parseComponent_unknown_kind (fs : CourseFS) (htr : String → String)
    (courseRoot : String) (component : ComponentRef)
    (hroot : courseRoot ≠ "") (hkind : component.kind ≠ "") (hid : component.id ≠ "")
    (hnot : jsToLower component.kind ∉ (["html", "problem", "video", "about"] : List String)) :
    parseComponent fs courseRoot component =
      .ok (ComponentIR.unknown
        ("*Unsupported component type: " ++ component.kind ++ " (" ++ component.id ++ ")*")
        component.id component.id)
    ∧ strContains component.kind
        (renderComponent htr (ComponentIR.unknown
          ("*Unsupported component type: " ++ component.kind ++ " (" ++ component.id ++ ")*")
          component.id component.id)) = true
    ∧ strContains component.id
        (renderComponent htr (ComponentIR.unknown
          ("*Unsupported component type: " ++ component.kind ++ " (" ++ component.id ++ ")*")
          component.id component.id)) = true := by
  simp only [List.mem_cons, List.not_mem_nil, not_or] at hnot
  obtain ⟨h1, h2, h3, h4, -⟩ := hnot
  have hout : renderComponent htr (ComponentIR.unknown
      ("*Unsupported component type: " ++ component.kind ++ " (" ++ component.id ++ ")*")
      component.id component.id) =
      "## Unsupported Component: " ++ component.id ++ "\n\n" ++
        ("*Unsupported component type: " ++ component.kind ++ " (" ++ component.id ++ ")*") ++
        "\n\n---\n" := by
    simp only [renderComponent]
    rw [if_neg hid]
  refine ⟨?_, ?_, ?_⟩
  · simp only [parseComponent]
    rw [if_neg hroot, if_neg ?hguard, if_neg h1, if_neg h2, if_neg h3, if_neg h4]
    case hguard =>
      simp [hkind, hid]
  · rw [hout]
    apply strContains_of_infix
    refine ⟨("## Unsupported Component: ").data ++ component.id.data ++ ("\n\n").data ++
      ("*Unsupported component type: ").data,
      (" (").data ++ component.id.data ++ (")*").data ++ ("\n\n---\n").data, ?_⟩
    simp [String.data_append, List.append_assoc]
  · rw [hout]
    apply strContains_of_infix
    refine ⟨("## Unsupported Component: ").data,
      ("\n\n").data ++ ("*Unsupported component type: ").data ++ component.kind.data ++
        (" (").data ++ component.id.data ++ (")*").data ++ ("\n\n---\n").data, ?_⟩
    simp [String.data_append, List.append_assoc]

/-- Witness for claim C6 (amended): a `discussion` component reference. -/
theorem parseComponent_unknown_kind_witness :
    parseComponent fsEmptyEx "root" unknownKindRefEx =
      .ok (ComponentIR.unknown "*Unsupported component type: discussion (d1)*" "d1" "d1")
    ∧ strContains "discussion"
        (renderComponent id (ComponentIR.unknown
          "*Unsupported component type: discussion (d1)*" "d1" "d1")) = true := by
  have h := parseComponent_unknown_kind fsEmptyEx id "root" unknownKindRefEx
    (by decide) (by decide) (by decide) (by decide)
  exact ⟨h.1, h.2.1⟩

/-! ## Missing structural files (claim C3) -/

theorem parseChapterRef_id (fs : CourseFS) (courseRoot : String) (ref : String) :
    (parseChapterRef fs courseRoot ref).id = ref := by
  rw [parseChapterRef]
  cases fs.chapterFile ref <;> rfl

theorem parseSequentialRef_id (fs : CourseFS) (courseRoot : String) (ref : String) :
    (parseSequentialRef fs courseRoot ref).id = ref := by
  rw [parseSequentialRef]
  cases fs.sequentialFile ref <;> rfl

theorem parseVerticalRef_id (fs : CourseFS) (courseRoot : String) (ref : String) :
    (parseVerticalRef fs courseRoot ref).id = ref := by
  rw [parseVerticalRef]
  cases fs.verticalFile ref <;> rfl

theorem filter_map_id_of_count_one (f : String → SNode) (hf : ∀ r, (f r).id = r) :
    ∀ (refs : List String) (ref : String), refs.count ref = 1 →
      (refs.map f).filter (fun c => c.id = ref) = [f ref] := by
  intro refs
  induction refs with
  | nil =>
    intro ref h
    simp [List.count_nil] at h
  | cons b bs ih =>
    intro ref h
    rw [List.map_cons, List.filter_cons]
    by_cases hb : b = ref
    · subst hb
      have hc : bs.count b = 0 := by
        have h2 := List.count_cons_self b bs
        omega
      have hnotmem : b ∉ bs := List.count_eq_zero.mp hc
      have hnil : (bs.map f).filter (fun c => c.id = b) = [] := by
        rw [List.filter_eq_nil_iff]
        intro c hcmem
        obtain ⟨r, hr, hrc⟩ := List.mem_map.mp hcmem
        intro hcontra
        rw [← hrc, hf r] at hcontra
        exact hnotmem (of_decide_eq_true hcontra ▸ hr)
      have hcond : (f b).id = b := hf b
      simp [hcond, hnil]
    · have hcount : bs.count ref = 1 := by
        rw [List.count_cons] at h
        simp [hb] at h
        exact h
      have hcond : ¬ ((f b).id = ref) := by
        rw [hf]
        exact hb
      simp only [hcond]
      simp only [decide_eq_true_eq, if_neg hcond]
      exact ih ref hcount

/-- Claim C3: for every chapter, sequential or vertical reference whose
backing XML file is absent, the parse of the reference list yields exactly
one placeholder node for that reference — titled exactly
`Missing <level> <ref>` with an empty children sequence — at that
reference's position, every sibling reference is still processed in order
(the append decomposition), the output has one node per reference, and
tree construction still succeeds whenever `course.xml` itself is present. -/
theorem missing_structural_placeholders (fs : CourseFS) (courseRoot : String) :
    ((∀ refs : List String, (parseChapters fs courseRoot refs).length = refs.length)
      ∧ (∀ ref, fs.chapterFile ref = none →
          parseChapterRef fs courseRoot ref =
            SNode.mk ref ("Missing chapter " ++ ref) [] [] [])
      ∧ (∀ (pre post : List String) (ref : String),
          parseChapters fs courseRoot (pre ++ ref :: post) =
            parseChapters fs courseRoot pre ++
              parseChapterRef fs courseRoot ref :: parseChapters fs courseRoot post)
      ∧ (∀ (refs : List String) (ref : String), fs.chapterFile ref = none →
          refs.count ref = 1 →
          (parseChapters fs courseRoot refs).filter (fun c => c.id = ref) =
            [SNode.mk ref ("Missing chapter " ++ ref) [] [] []]))
    ∧ ((∀ refs : List String, (parseSequentials fs courseRoot refs).length = refs.length)
      ∧ (∀ ref, fs.sequentialFile ref = none →
          parseSequentialRef fs courseRoot ref =
            SNode.mk ref ("Missing sequential " ++ ref) [] [] [])
      ∧ (∀ (pre post : List String) (ref : String),
          parseSequentials fs courseRoot (pre ++ ref :: post) =
            parseSequentials fs courseRoot pre ++
              parseSequentialRef fs courseRoot ref :: parseSequentials fs courseRoot post)
      ∧ (∀ (refs : List String) (ref : String), fs.sequentialFile ref = none →
          refs.count ref = 1 →
          (parseSequentials fs courseRoot refs).filter (fun c => c.id = ref) =
            [SNode.mk ref ("Missing sequential " ++ ref) [] [] []]))
    ∧ ((∀ refs : List String, (parseVerticals fs courseRoot refs).length = refs.length)
      ∧ (∀ ref, fs.verticalFile ref = none →
          parseVerticalRef fs courseRoot ref =
            SNode.mk ref ("Missing vertical " ++ ref) [] [] [])
      ∧ (∀ (pre post : List String) (ref : String),
          parseVerticals fs courseRoot (pre ++ ref :: post) =
            parseVerticals fs courseRoot pre ++
              parseVerticalRef fs courseRoot ref :: parseVerticals fs courseRoot post)
      ∧ (∀ (refs : List String) (ref : String), fs.verticalFile ref = none →
          refs.count ref = 1 →
          (parseVerticals fs courseRoot refs).filter (fun c => c.id = ref) =
            [SNode.mk ref ("Missing vertical " ++ ref) [] [] []]))
    ∧ (∀ rootNode, fs.courseXml = some rootNode →
        ∃ t, buildCourseTree fs courseRoot = Except.ok t) := by
  refine ⟨⟨?_, ?_, ?_, ?_⟩, ⟨?_, ?_, ?_, ?_⟩, ⟨?_, ?_, ?_, ?_⟩, ?_⟩
  · intro refs
    rw [parseChapters, List.length_map]
  · intro ref h
    rw [parseChapterRef, h]
  · intro pre post ref
    rw [parseChapters, parseChapters, parseChapters, List.map_append, List.map_cons]
  · intro refs ref h hcount
    have hplace : parseChapterRef fs courseRoot ref =
        SNode.mk ref ("Missing chapter " ++ ref) [] [] [] := by
      rw [parseChapterRef, h]
    rw [parseChapters,
      filter_map_id_of_count_one _ (parseChapterRef_id fs courseRoot) refs ref hcount, hplace]
  · intro refs
    rw [parseSequentials, List.length_map]
  · intro ref h
    rw [parseSequentialRef, h]
  · intro pre post ref
    rw [parseSequentials, parseSequentials, parseSequentials, List.map_append, List.map_cons]
  · intro refs ref h hcount
    have hplace : parseSequentialRef fs courseRoot ref =
        SNode.mk ref ("Missing sequential " ++ ref) [] [] [] := by
      rw [parseSequentialRef, h]
    rw [parseSequentials,
      filter_map_id_of_count_one _ (parseSequentialRef_id fs courseRoot) refs ref hcount, hplace]
  · intro refs
    rw [parseVerticals, List.length_map]
  · intro ref h
    rw [parseVerticalRef, h]
  · intro pre post ref
    rw [parseVerticals, parseVerticals, parseVerticals, List.map_append, List.map_cons]
  · intro refs ref h hcount
    have hplace : parseVerticalRef fs courseRoot ref =
        SNode.mk ref ("Missing vertical " ++ ref) [] [] [] := by
      rw [parseVerticalRef, h]
    rw [parseVerticals,
      filter_map_id_of_count_one _ (parseVerticalRef_id fs courseRoot) refs ref hcount, hplace]
  · intro rootNode h
    rw [buildCourseTree, parseCourseXml, h]
    exact ⟨_, rfl⟩

/-- Witness for claim C3: over `fsStructEx`, the missing `chapter/c1.xml`
yields exactly the `Missing chapter c1` placeholder (its sibling `c2` still
parsed), the missing `vertical/u9.xml` yields the `Missing vertical u9`
placeholder, and the course tree still builds. -/
theorem missing_structural_placeholders_witness :
    parseChapterRef fsStructEx "root" "c1" =
      SNode.mk "c1" ("Missing chapter " ++ "c1") [] [] []
    ∧ (parseChapters fsStructEx "root" ["c1", "c2"]).filter (fun c => c.id = "c1") =
        [SNode.mk "c1" ("Missing chapter " ++ "c1") [] [] []]
    ∧ parseVerticalRef fsStructEx "root" "u9" =
        SNode.mk "u9" ("Missing vertical " ++ "u9") [] [] []
    ∧ ∃ t, buildCourseTree fsStructEx "root" = Except.ok t := by
  have h := missing_structural_placeholders fsStructEx "root"
  refine ⟨h.1.2.1 "c1" rfl, h.1.2.2.2 ["c1", "c2"] "c1" rfl (by decide), ?_, ?_⟩
  · exact h.2.2.1.2.1 "u9" rfl
  · exact h.2.2.2 fsStructCourseEx rfl

/-! ## Leaf component failures (claim C4) -/

/-- Claim C4 counterexample, in two parts.  First, an `html` component
whose backing XML parses but whose root element is unrecognized does
*not* throw: `parseHtmlComponent` never inspects the root tag, so the
parse succeeds (only `problem`/`video` roots are checked).  Second, the
substituted block reads `*Content temporarily unavailable: …*` with a
capital `C`: the rendered vertical does not contain the claim's
lower-case text `content temporarily unavailable`. -/
theorem leaf_error_block_cex :
    parseComponent fsHtmlBadRootEx "root" { kind := "html", id := "h1" } =
      Except.ok (ComponentIR.html "<p>x</p>" "h1" "h1")
    ∧ transformNodeToMarkdown envHtmlBadRootEx vMissingProblemEx 1 "root" 3 =
        Except.ok ("#### Learning Content 1\n\n*Content temporarily unavailable: " ++
          "Problem file not found: root/problem/p1.xml*\n\n---\n")
    ∧ strContains "content temporarily unavailable"
        ((transformNodeToMarkdown envHtmlBadRootEx vMissingProblemEx 1 "root" 3).toOption.getD "")
        = false
    ∧ strContains "Content temporarily unavailable: Problem file not found: root/problem/p1.xml"
        ((transformNodeToMarkdown envHtmlBadRootEx vMissingProblemEx 1 "root" 3).toOption.getD "")
        = true := by
  refine ⟨rfl, rfl, by decide, by decide⟩

/-- Claim C4 (amended): a `problem` or `video` leaf whose backing file is
missing or whose root element is unrecognized throws at the parse call,
as do an `html` leaf missing either backing file and an `about` leaf
missing its directory; the Assembler's level-3 walk always returns
successfully (errors never escape the leaf loop), replacing each failed
leaf with the two-line block containing
`Content temporarily unavailable: <message>` (capital `C`) while every
sibling leaf renders exactly as it would alone (the append
decomposition). -/
theorem leaf_error_isolation (env : Env) (courseRoot : String) (hroot : courseRoot ≠ "") :
    (∀ component : ComponentRef, component.kind ≠ "" → component.id ≠ "" →
        jsToLower component.kind = "problem" → env.fs.problemFile component.id = none →
        parseComponent env.fs courseRoot component =
          .error ("Problem file not found: " ++
            pathJoin (pathJoin courseRoot "problem") (component.id ++ ".xml")))
    ∧ (∀ component : ComponentRef, component.kind ≠ "" → component.id ≠ "" →
        jsToLower component.kind = "problem" → env.fs.problemFile component.id = some none →
        parseComponent env.fs courseRoot component =
          .error ("Invalid problem XML structure: " ++ component.id))
    ∧ (∀ component : ComponentRef, component.kind ≠ "" → component.id ≠ "" →
        jsToLower component.kind = "video" → env.fs.videoFile component.id = none →
        parseComponent env.fs courseRoot component =
          .error ("Video file not found: " ++
            pathJoin (pathJoin courseRoot "video") (component.id ++ ".xml")))
    ∧ (∀ component : ComponentRef, component.kind ≠ "" → component.id ≠ "" →
        jsToLower component.kind = "video" → env.fs.videoFile component.id = some none →
        parseComponent env.fs courseRoot component =
          .error ("Invalid video XML structure: " ++ component.id))
    ∧ (∀ component : ComponentRef, component.kind ≠ "" → component.id ≠ "" →
        jsToLower component.kind = "html" → env.fs.htmlXmlFile component.id = none →
        parseComponent env.fs courseRoot component =
          .error ("HTML component XML not found: " ++
            pathJoin (pathJoin courseRoot "html") (component.id ++ ".xml")))
    ∧ (∀ component : ComponentRef, ∀ xmlNode, component.kind ≠ "" → component.id ≠ "" →
        jsToLower component.kind = "html" →
        env.fs.htmlXmlFile component.id = some xmlNode →
        env.fs.htmlBodyFile component.id = none →
        parseComponent env.fs courseRoot component =
          .error ("HTML component content not found: " ++
            pathJoin (pathJoin courseRoot "html") (component.id ++ ".html")))
    ∧ (∀ component : ComponentRef, component.kind ≠ "" → component.id ≠ "" →
        jsToLower component.kind = "about" → env.fs.aboutDir = none →
        parseComponent env.fs courseRoot component =
          .error ("About directory not found: " ++ pathJoin courseRoot "about"))
    ∧ (∀ (nid ntitle : String) (seqs verts : List SNode) (comps : List ComponentRef)
        (nodeNumber : Nat), ntitle ≠ "" → nid ≠ "" →
        transformNodeToMarkdown env (.mk nid ntitle seqs verts comps) nodeNumber courseRoot 3 =
          .ok (joinNL (renderLeafBlocks env courseRoot comps 0)))
    ∧ (∀ (c : ComponentRef) (rest : List ComponentRef) (idx : Nat) (msg : String),
        parseComponent env.fs courseRoot c = .error msg →
        renderLeafBlocks env courseRoot (c :: rest) idx =
          ("#### Learning Content " ++ toString (idx + 1) ++ "\n") ::
            ("*Content temporarily unavailable: " ++ msg ++ "*\n\n---\n") ::
            renderLeafBlocks env courseRoot rest (idx + 1))
    ∧ (∀ (c : ComponentRef) (rest : List ComponentRef) (idx : Nat) (ir : ComponentIR),
        parseComponent env.fs courseRoot c = .ok ir →
        renderLeafBlocks env courseRoot (c :: rest) idx =
          renderComponent env.htmlTranslate ir :: renderLeafBlocks env courseRoot rest (idx + 1))
    ∧ (∀ (xs ys : List ComponentRef) (idx : Nat),
        renderLeafBlocks env courseRoot (xs ++ ys) idx =
          renderLeafBlocks env courseRoot xs idx ++
            renderLeafBlocks env courseRoot ys (idx + xs.length)) := by
  refine ⟨?_, ?_, ?_, ?_, ?_, ?_, ?_, ?_, ?_, ?_, ?_⟩
  · intro c hk hi hkl hpf
    simp [parseComponent, parseProblemComponent, hroot, hk, hi, hkl, hpf]
  · intro c hk hi hkl hpf
    simp [parseComponent, parseProblemComponent, hroot, hk, hi, hkl, hpf]
  · intro c hk hi hkl hvf
    simp [parseComponent, parseVideoComponent, hroot, hk, hi, hkl, hvf]
  · intro c hk hi hkl hvf
    simp [parseComponent, parseVideoComponent, hroot, hk, hi, hkl, hvf]
  · intro c hk hi hkl hxf
    simp [parseComponent, parseHtmlComponent, hroot, hk, hi, hkl, hxf]
  · intro c xmlNode hk hi hkl hxf hbf
    simp [parseComponent, parseHtmlComponent, hroot, hk, hi, hkl, hxf, hbf]
  · intro c hk hi hkl had
    simp [parseComponent, parseAboutComponent, hroot, hk, hi, hkl, had]
  · intro nid ntitle seqs verts comps nodeNumber ht hn
    simp [transformNodeToMarkdown, ht, hn]
  · intro c rest idx msg h
    simp only [renderLeafBlocks, h]
    rfl
  · intro c rest idx ir h
    simp only [renderLeafBlocks, h]
    rfl
  · intro xs ys
    induction xs with
    | nil =>
      intro idx
      simp [renderLeafBlocks]
    | cons c xs ih =>
      intro idx
      simp only [List.cons_append, renderLeafBlocks, List.length_cons, List.append_eq]
      rw [ih (idx + 1), List.append_assoc]
      have harith : idx + 1 + xs.length = idx + (xs.length + 1) := by omega
      rw [harith]

/-- Witness for claim C4 (amended): the missing-problem vertical renders
to the fallback block, the sibling-independence decomposition at a
concrete split, and a concrete missing-file parse error. -/
theorem leaf_error_isolation_witness :
    parseComponent fsHtmlBadRootEx "root" { kind := "problem", id := "p1" } =
      Except.error ("Problem file not found: " ++
        pathJoin (pathJoin "root" "problem") ("p1" ++ ".xml"))
    ∧ transformNodeToMarkdown envHtmlBadRootEx vMissingProblemEx 1 "root" 3 =
        Except.ok (joinNL (renderLeafBlocks envHtmlBadRootEx "root"
          [{ kind := "problem", id := "p1" }] 0))
    ∧ renderLeafBlocks envHtmlBadRootEx "root"
        ([{ kind := "html", id := "h1" }] ++ [{ kind := "problem", id := "p1" }]) 0 =
        renderLeafBlocks envHtmlBadRootEx "root" [{ kind := "html", id := "h1" }] 0 ++
          renderLeafBlocks envHtmlBadRootEx "root" [{ kind := "problem", id := "p1" }] 1 := by
  have h := leaf_error_isolation envHtmlBadRootEx "root" (by decide)
  refine ⟨h.1 { kind := "problem", id := "p1" } (by decide) (by decide) (by decide) rfl, ?_, ?_⟩
  · exact h.2.2.2.2.2.2.2.1 "v1" "V" [] [] [{ kind := "problem", id := "p1" }] 1
      (by decide) (by decide)
  · have := h.2.2.2.2.2.2.2.2.2.2 [{ kind := "html", id := "h1" }]
      [{ kind := "problem", id := "p1" }] 0
    simpa using this

/-! ## Document assembly (claims C7 and C10) -/

theorem joinNL_cons (a : String) (l : List String) (h : l ≠ []) :
    joinNL (a :: l) = a ++ "\n" ++ joinNL l := by
  cases l with
  | nil => exact absurd rfl h
  | cons b m => rfl

theorem tnm_vertical_eq (env : Env) (courseRoot : String) (v : SNode) (n : Nat)
    (h : validNode v = true) :
    transformNodeToMarkdown env v n courseRoot 3 = .ok (verticalDoc env courseRoot v) := by
  cases v with
  | mk nid ntitle seqs verts comps =>
    simp only [validNode, Bool.and_eq_true, decide_eq_true_eq] at h
    obtain ⟨⟨⟨hnid, hntitle⟩, hseqs⟩, hverts⟩ := h
    simp [transformNodeToMarkdown, verticalDoc, hntitle, hnid, SNode.components]

theorem tcn_level3_eq (env : Env) (courseRoot : String) :
    ∀ (vs : List SNode), validNodes vs = true → ∀ i,
      transformChildNodes env courseRoot vs i 3 = .ok (vs.map (verticalDoc env courseRoot)) := by
  intro vs
  induction vs with
  | nil =>
    intro _ i
    rfl
  | cons v rest ih =>
    intro h i
    simp only [validNodes, Bool.and_eq_true] at h
    simp only [transformChildNodes]
    rw [tnm_vertical_eq env courseRoot v (i + 1) h.1, ih h.2 (i + 1)]
    rfl

theorem tnm_sequential_eq (env : Env) (courseRoot : String) (s : SNode) (n : Nat)
    (h : validNode s = true) :
    transformNodeToMarkdown env s n courseRoot 2 = .ok (sequentialDoc env courseRoot s) := by
  cases s with
  | mk nid ntitle seqs verts comps =>
    simp only [validNode, Bool.and_eq_true, decide_eq_true_eq] at h
    obtain ⟨⟨⟨hnid, hntitle⟩, hseqs⟩, hverts⟩ := h
    simp [transformNodeToMarkdown, hntitle, hnid, tcn_level3_eq env courseRoot verts hverts 0,
      sequentialDoc, SNode.verticals, SNode.title, headingMarks]

theorem tcn_level2_eq (env : Env) (courseRoot : String) :
    ∀ (ss : List SNode), validNodes ss = true → ∀ i,
      transformChildNodes env courseRoot ss i 2 = .ok (ss.map (sequentialDoc env courseRoot)) := by
  intro ss
  induction ss with
  | nil =>
    intro _ i
    rfl
  | cons s rest ih =>
    intro h i
    simp only [validNodes, Bool.and_eq_true] at h
    simp only [transformChildNodes]
    rw [tnm_sequential_eq env courseRoot s (i + 1) h.1, ih h.2 (i + 1)]
    rfl

theorem tnm_chapter_eq (env : Env) (courseRoot : String) (c : SNode) (n : Nat)
    (h : validNode c = true) :
    transformNodeToMarkdown env c n courseRoot 1 = .ok (chapterDoc env courseRoot c) := by
  cases c with
  | mk nid ntitle seqs verts comps =>
    simp only [validNode, Bool.and_eq_true, decide_eq_true_eq] at h
    obtain ⟨⟨⟨hnid, hntitle⟩, hseqs⟩, hverts⟩ := h
    simp [transformNodeToMarkdown, hntitle, hnid, tcn_level2_eq env courseRoot seqs hseqs 0,
      chapterDoc, SNode.sequentials, SNode.title, headingMarks]

theorem tcn_level1_eq (env : Env) (courseRoot : String) :
    ∀ (cs : List SNode), validNodes cs = true → ∀ i,
      transformChildNodes env courseRoot cs i 1 = .ok (cs.map (chapterDoc env courseRoot)) := by
  intro cs
  induction cs with
  | nil =>
    intro _ i
    rfl
  | cons c rest ih =>
    intro h i
    simp only [validNodes, Bool.and_eq_true] at h
    simp only [transformChildNodes]
    rw [tnm_chapter_eq env courseRoot c (i + 1) h.1, ih h.2 (i + 1)]
    rfl

theorem transformCourseToMarkdown_eq (env : Env) (tree : CourseTree) (courseRoot : String)
    (ht : tree.title ≠ "") (hcr : courseRoot ≠ "") (hch : validNodes tree.chapters = true) :
    transformCourseToMarkdown env tree courseRoot = .ok (courseDoc env courseRoot tree) := by
  simp [transformCourseToMarkdown, ht, hcr, tcn_level1_eq env courseRoot tree.chapters hch 0,
    courseDoc]

/-- Claim C7: for every valid course tree (non-empty titles and ids and a
non-empty course root), `transformCourseToMarkdown` produces exactly the
layered document `courseDoc`: the course title as a level-1 heading, each
chapter as a level-2 heading, each sequential as a level-3 heading, no
heading for any vertical (its components' blocks appear directly, in the
vertical's component order), children visited in stored order at every
level, and the trailing `*Course conversion completed*` marker appended
exactly once at the end. -/
theorem transformCourseToMarkdown_headings (env : Env) (tree : CourseTree)
    (courseRoot : String) (ht : tree.title ≠ "") (hcr : courseRoot ≠ "")
    (hch : validNodes tree.chapters = true) :
    transformCourseToMarkdown env tree courseRoot = .ok (courseDoc env courseRoot tree) :=
  transformCourseToMarkdown_eq env tree courseRoot ht hcr hch

/-- Witness for claim C7: the small one-chapter tree. -/
theorem transformCourseToMarkdown_headings_witness :
    transformCourseToMarkdown { fs := fsEmptyEx } treeSmallEx "root" =
      .ok (courseDoc { fs := fsEmptyEx } "root" treeSmallEx) :=
  transformCourseToMarkdown_headings { fs := fsEmptyEx } treeSmallEx "root"
    (by decide) (by decide) (by decide)

/-- Claim C10: every document `transformCourseToMarkdown` accepts begins
with the fixed LiaScript metadata header — the lines `---`,
`author: Course Converter`, `email: converter@example.com`, `---` and a
blank line — before the level-1 course-title heading. -/
theorem transformCourseToMarkdown_metadata (env : Env) (tree : CourseTree)
    (courseRoot : String) (ht : tree.title ≠ "") (hcr : courseRoot ≠ "")
    (hch : validNodes tree.chapters = true) :
    ∃ rest, transformCourseToMarkdown env tree courseRoot =
      .ok ("---\nauthor: Course Converter\nemail: converter@example.com\n---\n\n# " ++
        tree.title ++ "\n\n" ++ rest) := by
  refine ⟨joinNL (tree.chapters.map (chapterDoc env courseRoot) ++
    ["\n---\n", "*Course conversion completed*\n"]), ?_⟩
  rw [transformCourseToMarkdown_eq env tree courseRoot ht hcr hch]
  congr 1
  rw [courseDoc]
  have hne : tree.chapters.map (chapterDoc env courseRoot) ++
      ["\n---\n", "*Course conversion completed*\n"] ≠ [] := by
    cases tree.chapters.map (chapterDoc env courseRoot) <;> simp
  show joinNL ("---" :: "author: Course Converter" :: "email: converter@example.com" :: "---" ::
      "" :: ("# " ++ tree.title ++ "\n") :: (tree.chapters.map (chapterDoc env courseRoot) ++
      ["\n---\n", "*Course conversion completed*\n"])) = _
  rw [joinNL_cons _ _ (by simp), joinNL_cons _ _ (by simp), joinNL_cons _ _ (by simp),
    joinNL_cons _ _ (by simp), joinNL_cons _ _ (by simp), joinNL_cons _ _ hne]
  rw [String.ext_iff]
  simp [String.data_append, List.append_assoc]

/-- Witness for claim C10: the small tree's document carries the header. -/
theorem transformCourseToMarkdown_metadata_witness :
    ∃ rest, transformCourseToMarkdown { fs := fsEmptyEx } treeSmallEx "root" =
      .ok ("---\nauthor: Course Converter\nemail: converter@example.com\n---\n\n# " ++
        treeSmallEx.title ++ "\n\n" ++ rest) :=
  transformCourseToMarkdown_metadata { fs := fsEmptyEx } treeSmallEx "root"
    (by decide) (by decide) (by decide)

end CourseConverter
